import Mathlib

/-!
# HUSB238 USB-PD controller driver (husb238.h / husb238.c)

A shallow embedding of the register-semantics layer of the driver.

* `uint8_t` / `uint16_t` values are natural numbers; a reduction modulo `2 ^ w`
  is written wherever a C conversion can lose bits.
* The blocking two-wire transport of the board SDK (`i2c_write_blocking`,
  `i2c_read_blocking`) is an external collaborator and is a parameter `T : I2C σ`.
* The global variables of `husb238.c` (`i2c_instance`, `supported_profiles`) are
  fields of the explicit state `Driver σ`, which also carries the state of the
  bus and a log of every transport call that the driver issued.
* A store into `supported_profiles` outside its `MAX_PROFILES` slots has no
  defined behaviour in C; the embedding returns `none` there.
-/

namespace HUSB238

/-! ## Constants of `husb238.h` and `husb238.c` -/

abbrev HUSB238_I2C_ADDRESS : Nat := 0x08

abbrev HUSB238_PD_STATUS0 : Nat := 0x00
abbrev HUSB238_PD_STATUS1 : Nat := 0x01
abbrev HUSB238_SRC_PDO_5V : Nat := 0x02
abbrev HUSB238_SRC_PDO_9V : Nat := 0x03
abbrev HUSB238_SRC_PDO_12V : Nat := 0x04
abbrev HUSB238_SRC_PDO_15V : Nat := 0x05
abbrev HUSB238_SRC_PDO_18V : Nat := 0x06
abbrev HUSB238_SRC_PDO_20V : Nat := 0x07
abbrev HUSB238_SRC_PDO : Nat := 0x08
abbrev HUSB238_GO_COMMAND : Nat := 0x09

abbrev NO_RESPONSE : Nat := 0b000
abbrev RESPONE_SUCCESS : Nat := 0b001
abbrev RESPONSE_INVALID_CMD_OR_ARG : Nat := 0b011
abbrev RESPONE_CMD_NOT_SUPPORTED : Nat := 0b100
abbrev RESPONE_TRANSACTION_FAIL_NO_GOOD_CRC : Nat := 0b101

abbrev CURRENT_0_5_A : Nat := 0b0000
abbrev CURRENT_0_7_A : Nat := 0b0001
abbrev CURRENT_1_0_A : Nat := 0b0010
abbrev CURRENT_1_25_A : Nat := 0b0011
abbrev CURRENT_1_5_A : Nat := 0b0100
abbrev CURRENT_1_75_A : Nat := 0b0101
abbrev CURRENT_2_0_A : Nat := 0b0110
abbrev CURRENT_2_25_A : Nat := 0b0111
abbrev CURRENT_2_50_A : Nat := 0b1000
abbrev CURRENT_2_75_A : Nat := 0b1001
abbrev CURRENT_3_0_A : Nat := 0b1010
abbrev CURRENT_3_25_A : Nat := 0b1011
abbrev CURRENT_3_5_A : Nat := 0b1100
abbrev CURRENT_4_0_A : Nat := 0b1101
abbrev CURRENT_4_5_A : Nat := 0b1110
abbrev CURRENT_5_0_A : Nat := 0b1111

abbrev PD_NOT_SELECTED : Nat := 0b0000
abbrev PD_SRC_5V : Nat := 0b0001
abbrev PD_SRC_9V : Nat := 0b0010
abbrev PD_SRC_12V : Nat := 0b0011
abbrev PD_SRC_15V : Nat := 0b1000
abbrev PD_SRC_18V : Nat := 0b1001
abbrev PD_SRC_20V : Nat := 0b1010

abbrev MAX_PROFILES : Nat := 6

abbrev UNATTACHED : Nat := 0b0000
abbrev PD_5V : Nat := 0b0001
abbrev PD_9V : Nat := 0b0010
abbrev PD_12V : Nat := 0b0011
abbrev PD_15V : Nat := 0b0100
abbrev PD_18V : Nat := 0b0101
abbrev PD_20V : Nat := 0b0110

/-! ## Data model -/

/-- The struct `PDProfile`: `uint8_t voltage; uint16_t current; uint8_t power;`. -/
structure PDProfile where
  voltage : Nat
  current : Nat
  power : Nat
deriving DecidableEq, Repr

/-- One call into the transport, as it appears on the bus. -/
inductive BusOp where
  | write (addr : Nat) (src : List Nat) (nostop : Bool)
  | read (addr : Nat) (len : Nat) (nostop : Bool)
deriving DecidableEq, Repr

/-- The transport of the board SDK. `write_blocking b inst addr src nostop` is
`i2c_write_blocking(inst, addr, src, len, nostop)` and yields the next bus state
and the returned byte count or error code. `read_blocking b inst addr len nostop`
is `i2c_read_blocking(inst, addr, dst, len, nostop)` for `len = 1` and yields the
next bus state, the returned count or error code, and the byte stored to `dst`
(`none` when `dst` is left untouched). -/
structure I2C (σ : Type) where
  write_blocking : σ → Option Nat → Nat → List Nat → Bool → σ × Int
  read_blocking : σ → Option Nat → Nat → Nat → Bool → σ × Int × Option Nat

/-- The globals of `husb238.c` together with the bus they talk to. -/
structure Driver (σ : Type) where
  i2c_instance : Option Nat
  supported_profiles : List PDProfile
  bus : σ
  log : List BusOp

/-- The state at program start: `i2c_instance = NULL`, and `supported_profiles`
zero-initialised as every object of static storage duration. -/
def Driver.boot {σ : Type} (b : σ) : Driver σ :=
  { i2c_instance := none
    supported_profiles := List.replicate MAX_PROFILES ⟨0, 0, 0⟩
    bus := b
    log := [] }

/-! ## Code tables -/

/-- The function `parse_current` (husb238.c:52). -/
def parse_current (current : Nat) : Nat :=
  if current = CURRENT_0_5_A then 500
  else if current = CURRENT_0_7_A then 700
  else if current = CURRENT_1_0_A then 1000
  else if current = CURRENT_1_25_A then 1250
  else if current = CURRENT_1_5_A then 1500
  else if current = CURRENT_1_75_A then 1750
  else if current = CURRENT_2_0_A then 2000
  else if current = CURRENT_2_25_A then 2250
  else if current = CURRENT_2_50_A then 2500
  else if current = CURRENT_2_75_A then 2750
  else if current = CURRENT_3_0_A then 3000
  else if current = CURRENT_3_25_A then 3250
  else if current = CURRENT_3_5_A then 3500
  else if current = CURRENT_4_0_A then 4000
  else if current = CURRENT_4_5_A then 4500
  else if current = CURRENT_5_0_A then 5000
  else 0

/-- The function `parse_voltage` (husb238.c:122). -/
def parse_voltage (voltage : Nat) : Nat :=
  if voltage = PD_5V then PD_SRC_5V
  else if voltage = PD_9V then PD_SRC_9V
  else if voltage = PD_12V then PD_SRC_12V
  else if voltage = PD_15V then PD_SRC_15V
  else if voltage = PD_18V then PD_SRC_18V
  else if voltage = PD_20V then PD_SRC_20V
  else PD_NOT_SELECTED

/-! ## Register accessor -/

/-- A call of `i2c_write_blocking` on the bound instance, recorded in the log. -/
def i2c_write_blocking {σ : Type} (T : I2C σ) (s : Driver σ) (addr : Nat) (src : List Nat)
    (nostop : Bool) : Driver σ × Int :=
  let r := T.write_blocking s.bus s.i2c_instance addr src nostop
  ({ s with bus := r.1, log := s.log ++ [BusOp.write addr src nostop] }, r.2)

/-- A call of `i2c_read_blocking` of one byte on the bound instance, recorded in
the log. `dst` is the byte the destination holds before the call; the third
component is the byte it holds afterwards. -/
def i2c_read_blocking {σ : Type} (T : I2C σ) (s : Driver σ) (addr : Nat) (dst : Nat)
    (nostop : Bool) : Driver σ × Int × Nat :=
  let r := T.read_blocking s.bus s.i2c_instance addr 1 nostop
  ({ s with bus := r.1, log := s.log ++ [BusOp.read addr 1 nostop] }, r.2.1,
    match r.2.2 with
    | some b => b % 256
    | none => dst)

/-- The function `husb238_write_register` (husb238.c:171). -/
def husb238_write_register {σ : Type} (T : I2C σ) (s : Driver σ) (reg value : Nat) :
    Driver σ × Bool :=
  let buffer := [reg, value]
  let r := i2c_write_blocking T s HUSB238_I2C_ADDRESS buffer false
  (r.1, r.2 == 2)

/-- The function `husb238_read_register` (husb238.c:209). `value` is the byte
that `*value` holds at the call; the third component of the result is the byte it
holds at the return. -/
def husb238_read_register {σ : Type} (T : I2C σ) (s : Driver σ) (reg value : Nat) :
    Driver σ × Bool × Nat :=
  let w := i2c_write_blocking T s HUSB238_I2C_ADDRESS [reg] true
  if w.2 ≠ 1 then (w.1, false, value)
  else
    let r := i2c_read_blocking T w.1 HUSB238_I2C_ADDRESS value false
    (r.1, r.2.1 == 1, r.2.2)

/-! ## Status decoder -/

/-- The function `husb238_getCCDirection` (husb238.c:246); the `uint8_t`
expression is converted to `bool`. -/
def husb238_getCCDirection {σ : Type} (T : I2C σ) (s : Driver σ) : Driver σ × Bool :=
  let reg_value := 0
  let r := husb238_read_register T s HUSB238_PD_STATUS1 reg_value
  (r.1, (r.2.2 >>> 7) != 0)

/-- The function `husb238_isAttached` (husb238.c:278). -/
def husb238_isAttached {σ : Type} (T : I2C σ) (s : Driver σ) : Driver σ × Bool :=
  let reg_value := 0
  let r := husb238_read_register T s HUSB238_PD_STATUS1 reg_value
  (r.1, ((r.2.2 >>> 6) &&& 0x01) != 0)

/-- The function `husb238_getPDRespone` (husb238.c:315). -/
def husb238_getPDRespone {σ : Type} (T : I2C σ) (s : Driver σ) : Driver σ × Nat :=
  let reg_value := 0
  let r := husb238_read_register T s HUSB238_PD_STATUS1 reg_value
  (r.1, (r.2.2 >>> 3) &&& 0x07)

/-- The function `husb238_get5VContractV` (husb238.c:346). -/
def husb238_get5VContractV {σ : Type} (T : I2C σ) (s : Driver σ) : Driver σ × Bool :=
  let reg_value := 0
  let r := husb238_read_register T s HUSB238_PD_STATUS1 reg_value
  (r.1, ((r.2.2 >>> 2) &&& 0x01) != 0)

/-- The function `husb238_get5VContractA` (husb238.c:376). -/
def husb238_get5VContractA {σ : Type} (T : I2C σ) (s : Driver σ) : Driver σ × Nat :=
  let reg_value := 0
  let r := husb238_read_register T s HUSB238_PD_STATUS1 reg_value
  (r.1, r.2.2 &&& 0x03)

/-- The function `husb238_getPDSrcVoltage` (husb238.c:404). -/
def husb238_getPDSrcVoltage {σ : Type} (T : I2C σ) (s : Driver σ) : Driver σ × Nat :=
  let reg_value := 0
  let r := husb238_read_register T s HUSB238_PD_STATUS0 reg_value
  (r.1, parse_voltage ((r.2.2 >>> 4) &&& 0x0F))

/-- The function `husb238_getPDSrcCurrent` (husb238.c:432). -/
def husb238_getPDSrcCurrent {σ : Type} (T : I2C σ) (s : Driver σ) : Driver σ × Nat :=
  let reg_value := 0
  let r := husb238_read_register T s HUSB238_PD_STATUS0 reg_value
  (r.1, parse_current (r.2.2 &&& 0x0F))

/-- The function `husb238_getSelectedPD` (husb238.c:463). -/
def husb238_getSelectedPD {σ : Type} (T : I2C σ) (s : Driver σ) : Driver σ × Nat :=
  let reg_value := 0
  let r := husb238_read_register T s HUSB238_SRC_PDO reg_value
  (r.1, (r.2.2 >>> 4) &&& 0x0F)

/-! ## Profile scanner -/

/-- The function `husb238_isVoltageDetected` (husb238.c:499): the loop over the
`MAX_PROFILES` slots of `supported_profiles` that returns at the first slot whose
`voltage` equals `pd_src`. It makes no transport call and changes no state. -/
def husb238_isVoltageDetected {σ : Type} (s : Driver σ) (pd_src : Nat) : Bool :=
  (s.supported_profiles.take MAX_PROFILES).any (fun p => p.voltage == pd_src)

/-- The value of `supported_profiles[support_cnt].power` after the `switch (i-1)`
of the scan (husb238.c:555): the product is formed in `int` and converted to the
`uint8_t` field. -/
def scan_power (tier current : Nat) : Nat :=
  if tier = PD_5V then (5 * current) % 256
  else if tier = PD_9V then (9 * current) % 256
  else if tier = PD_12V then (12 * current) % 256
  else if tier = PD_15V then (15 * current) % 256
  else if tier = PD_18V then (18 * current) % 256
  else if tier = PD_20V then (20 * current) % 256
  else 0

/-- The three stores `supported_profiles[idx].voltage = ..`, `.current = ..`,
`.power = ..` of one loop iteration, as one store of the slot; an index outside
the array has no defined behaviour. -/
def store_profile (ps : List PDProfile) (idx : Nat) (p : PDProfile) : Option (List PDProfile) :=
  if idx < MAX_PROFILES then some (ps.set idx p) else none

/-- The loop of `husb238_getSupportedVoltages` (husb238.c:548) with `n` iterations
left, loop counter `i`, and the locals `reg_value` and `support_cnt`, both of
which live across iterations. The counter runs over 2..7 and the count stays
below 7, so no `uint8_t` wraps. -/
def scan_loop {σ : Type} (T : I2C σ) :
    Nat → Nat → Driver σ → Nat → Nat → Option (Driver σ × Nat)
  | 0, _, s, _, support_cnt => some (s, support_cnt)
  | n + 1, i, s, reg_value, support_cnt =>
    let r := husb238_read_register T s i reg_value
    let reg_value := r.2.2
    if ((reg_value >>> 7) &&& 0x01) = 1 then
      let voltage := parse_voltage (i - 1)
      let current := parse_current (reg_value &&& 0x0F) % 65536
      let power := scan_power (i - 1) current
      match store_profile r.1.supported_profiles support_cnt ⟨voltage, current, power⟩ with
      | none => none
      | some ps => scan_loop T n (i + 1) { r.1 with supported_profiles := ps } reg_value
          (support_cnt + 1)
    else scan_loop T n (i + 1) r.1 reg_value support_cnt

/-- The function `husb238_getSupportedVoltages` (husb238.c:544):
`for (i = HUSB238_SRC_PDO_5V; i < HUSB238_SRC_PDO_20V + 1; i++)`. -/
def husb238_getSupportedVoltages {σ : Type} (T : I2C σ) (s : Driver σ) :
    Option (Driver σ × Nat) :=
  let reg_value := 0
  let support_cnt := 0
  scan_loop T (HUSB238_SRC_PDO_20V + 1 - HUSB238_SRC_PDO_5V) HUSB238_SRC_PDO_5V s reg_value
    support_cnt

/-! ## Command issuer -/

/-- The function `husb2238_selectPD` (husb238.c:593); `pd_src << 4` is converted
to the `uint8_t` parameter of `husb238_write_register`. -/
def husb2238_selectPD {σ : Type} (T : I2C σ) (s : Driver σ) (pd_src : Nat) : Driver σ :=
  (husb238_write_register T s HUSB238_SRC_PDO ((pd_src <<< 4) % 256)).1

/-- The function `husb238_requestPD` (husb238.c:605). -/
def husb238_requestPD {σ : Type} (T : I2C σ) (s : Driver σ) : Driver σ :=
  (husb238_write_register T s HUSB238_GO_COMMAND 0b00001).1

/-- The function `husb238_reset` (husb238.c:626). -/
def husb238_reset {σ : Type} (T : I2C σ) (s : Driver σ) : Driver σ :=
  (husb238_write_register T s HUSB238_GO_COMMAND 0b10000).1

/-! ## Initializer -/

/-- Conversion of a `uint8_t` to the `int8_t` return type. -/
def to_int8 (n : Nat) : Int :=
  if n % 256 < 128 then (n % 256 : Nat) else ((n % 256 : Nat) : Int) - 256

/-- The function `husb238_init` (husb238.c:657). -/
def husb238_init {σ : Type} (T : I2C σ) (s : Driver σ) (i2c_port : Option Nat) :
    Option (Driver σ × Int) :=
  let s0 := { s with i2c_instance := i2c_port }
  let a := husb238_isAttached T s0
  if !a.2 then some (a.1, 0)
  else
    let p := husb238_getPDRespone T a.1
    if p.2 ≠ RESPONE_SUCCESS then some (p.1, -1)
    else
      match husb238_getSupportedVoltages T p.1 with
      | none => none
      | some (s3, num_voltage) =>
        if num_voltage = 0 then some (s3, -2) else some (s3, to_int8 num_voltage)

/-! ## A simulated chip

The register protocol of the data sheet as a transport: a register file, the
register address latched by the last address write, and the registers whose
address phase or data phase the bus refuses. -/

/-- State of the simulated chip. -/
structure Chip where
  regs : Nat → Nat
  ptr : Nat
  nack_addr : Nat → Bool
  nack_data : Nat → Bool

/-- The simulated chip as a transport. It answers only at the device address
`0x08`. A one-byte write latches the register address; a two-byte write stores
the second byte into the addressed register; a read delivers the low eight bits
of the latched register. A refused phase returns `PICO_ERROR_GENERIC` (-1) and
leaves the destination byte untouched. -/
def sim_chip : I2C Chip where
  write_blocking c _ addr src _ :=
    if addr ≠ HUSB238_I2C_ADDRESS then (c, -1)
    else
      match src with
      | [reg] => if c.nack_addr reg then (c, -1) else ({ c with ptr := reg }, 1)
      | [reg, value] =>
        if c.nack_addr reg then (c, -1)
        else ({ c with ptr := reg, regs := fun a => if a = reg then value else c.regs a }, 2)
      | _ => (c, -1)
  read_blocking c _ addr _ _ :=
    if addr ≠ HUSB238_I2C_ADDRESS then (c, -1, none)
    else if c.nack_data c.ptr then (c, -1, none)
    else (c, 1, some (c.regs c.ptr % 256))

/-- A chip whose bus never refuses a transaction. -/
def Chip.reliable (regs : Nat → Nat) (ptr : Nat) : Chip :=
  { regs := regs, ptr := ptr, nack_addr := fun _ => false, nack_data := fun _ => false }

/-- The bus of the chip refuses no transaction. -/
def Chip.Reliable (c : Chip) : Prop :=
  (∀ a, c.nack_addr a = false) ∧ (∀ a, c.nack_data a = false)

/-- The capability registers 0x02..0x07 given as a list, every other register 0. -/
def regs_of (caps : List Nat) : Nat → Nat :=
  fun a => if 2 ≤ a then caps.getD (a - 2) 0 else 0

/-- Bit 7 of a register byte, the "supported" flag of a capability register. -/
def supported_bit (r : Nat) : Bool := (r % 256).testBit 7

/-- The addresses `i, i+1, .., i+n-1` visited by `n` iterations of the scan loop. -/
def tier_addrs : Nat → Nat → List Nat
  | _, 0 => []
  | i, n + 1 => i :: tier_addrs (i + 1) n

/-- The read of register `reg` in state `s` fails at the transport and leaves the
destination byte as it was. -/
def ReadFails {σ : Type} (T : I2C σ) (s : Driver σ) (reg : Nat) : Prop :=
  ∀ v, (husb238_read_register T s reg v).2 = (false, v)

/-- A chip that refuses the data phase of every register read. -/
def Chip.deaf (regs : Nat → Nat) : Chip :=
  { regs := regs, ptr := 0, nack_addr := fun _ => false, nack_data := fun _ => true }

/-- The slot that one iteration of the scan loop stores for the capability register
at address `a` of the register file `regs`, when its read succeeds. -/
def scan_entry (regs : Nat → Nat) (a : Nat) : PDProfile :=
  { voltage := parse_voltage (a - 1)
    current := parse_current ((regs a % 256) &&& 0x0F)
    power := scan_power (a - 1) (parse_current ((regs a % 256) &&& 0x0F)) }

/-- The slots that `n` iterations from address `i` store on a reliable chip. -/
def scan_entries (regs : Nat → Nat) (i n : Nat) : List PDProfile :=
  ((tier_addrs i n).filter (fun a => supported_bit (regs a))).map (scan_entry regs)

/-- The number of capability registers 0x02..0x07 of `regs` with bit 7 set. -/
def supported_count (regs : Nat → Nat) : Nat :=
  ([2, 3, 4, 5, 6, 7].filter (fun a => supported_bit (regs a))).length

/-- A chip with the capability registers `caps` whose bus refuses the data phase of
the register `bad` only. -/
def Chip.nack_one (caps : List Nat) (bad : Nat) : Chip :=
  { regs := regs_of caps, ptr := 0, nack_addr := fun _ => false, nack_data := fun a => a == bad }

/-- A scan, then a second scan after the attached source, and with it the register
file, changed to `regs2`; yields both counts and the state after the second scan. -/
def rescan (s : Driver Chip) (regs2 : Nat → Nat) : Option (Nat × Nat × Driver Chip) :=
  (husb238_getSupportedVoltages sim_chip s).bind fun r1 =>
    (husb238_getSupportedVoltages sim_chip { r1.1 with bus := Chip.reliable regs2 0 }).map
      fun r2 => (r1.2, r2.2, r2.1)

/-- The transport calls of one `husb238_read_register reg`: the address write, and
the one-byte read when it is attempted. -/
def read_ops (reg : Nat) (attempted : Bool) : List BusOp :=
  BusOp.write HUSB238_I2C_ADDRESS [reg] true
    :: (if attempted then [BusOp.read HUSB238_I2C_ADDRESS 1 false] else [])

/-- A chip that refuses the address phase of every transaction. -/
def Chip.mute (regs : Nat → Nat) : Chip :=
  { regs := regs, ptr := 0, nack_addr := fun _ => true, nack_data := fun _ => false }

/-- A register file with the given STATUS0 and STATUS1 bytes and the capability
registers `caps`. -/
def regs_with (status0 status1 : Nat) (caps : List Nat) : Nat → Nat :=
  fun a => if a = 0 then status0 else if a = 1 then status1 else regs_of caps a

/-- The five STATUS1 decoders called one after the other, and the byte reassembled
from their results:
`(cc << 7) | (attached << 6) | (response << 3) | (contract_v << 2) | contract_a`. -/
def status1_fields {σ : Type} (T : I2C σ) (s : Driver σ) : Driver σ × Nat :=
  let a := husb238_getCCDirection T s
  let b := husb238_isAttached T a.1
  let c := husb238_getPDRespone T b.1
  let d := husb238_get5VContractV T c.1
  let e := husb238_get5VContractA T d.1
  (e.1, (a.2.toNat <<< 7) ||| (b.2.toNat <<< 6) ||| (c.2 <<< 3) ||| (d.2.toNat <<< 2) ||| e.2)

/-- A driver whose six slots all hold a stale 20 V profile, as left behind by an
earlier scan of another source, on the bus `b`. -/
def Driver.stale {σ : Type} (b : σ) : Driver σ :=
  { i2c_instance := some 0
    supported_profiles := List.replicate MAX_PROFILES ⟨PD_SRC_20V, 5000, 160⟩
    bus := b
    log := [] }

/-! ## Code tables: theorems -/

theorem parse_current_of_ge (c : Nat) (hc : 16 ≤ c) : parse_current c = 0 := by
  obtain ⟨d, rfl⟩ : ∃ d, c = d + 16 := ⟨c - 16, by omega⟩
  rfl

theorem parse_voltage_of_undefined (v : Nat) (hv : v = 0 ∨ 7 ≤ v) :
    parse_voltage v = PD_NOT_SELECTED := by
  rcases hv with rfl | hv
  · rfl
  · obtain ⟨d, rfl⟩ : ∃ d, v = d + 7 := ⟨v - 7, by omega⟩
    rfl

theorem parse_current_le (c : Nat) : parse_current c ≤ 5000 := by
  by_cases hc : c < 16
  · interval_cases c <;> decide
  · rw [parse_current_of_ge c (by omega)]
    omega

/-- C4: `parse_current` maps the codes 0..15 to 500, 700, 1000, 1250, 1500, 1750,
2000, 2250, 2500, 2750, 3000, 3250, 3500, 4000, 4500, 5000 mA in this order, and
every other input to 0. -/
theorem parse_current_table :
    (List.range 16).map parse_current
        = [500, 700, 1000, 1250, 1500, 1750, 2000, 2250, 2500, 2750, 3000, 3250, 3500,
            4000, 4500, 5000]
      ∧ ∀ c : Nat, 16 ≤ c → parse_current c = 0 := by
  exact ⟨by decide, parse_current_of_ge⟩

/-- Witness for C4 at the byte 255. -/
theorem parse_current_table_witness : 16 ≤ 255 ∧ parse_current 255 = 0 :=
  ⟨by decide, parse_current_table.2 255 (by decide)⟩

/-- C5: `parse_voltage` maps the tier codes 1..6 (5V, 9V, 12V, 15V, 18V, 20V) to the
selector codes 1, 2, 3, 8, 9, 10, and every other input (0 and 7 upwards) to
`PD_NOT_SELECTED`, which is 0. -/
theorem parse_voltage_table :
    [PD_5V, PD_9V, PD_12V, PD_15V, PD_18V, PD_20V] = [1, 2, 3, 4, 5, 6]
      ∧ [1, 2, 3, 4, 5, 6].map parse_voltage = [1, 2, 3, 8, 9, 10]
      ∧ [PD_SRC_5V, PD_SRC_9V, PD_SRC_12V, PD_SRC_15V, PD_SRC_18V, PD_SRC_20V]
          = [1, 2, 3, 8, 9, 10]
      ∧ PD_NOT_SELECTED = 0
      ∧ ∀ v : Nat, (v = 0 ∨ 7 ≤ v) → parse_voltage v = PD_NOT_SELECTED := by
  exact ⟨rfl, by decide, rfl, rfl, parse_voltage_of_undefined⟩

/-- Witness for C5 at the bytes 0 and 7. -/
theorem parse_voltage_table_witness :
    parse_voltage 0 = PD_NOT_SELECTED ∧ parse_voltage 7 = PD_NOT_SELECTED :=
  ⟨parse_voltage_table.2.2.2.2 0 (Or.inl rfl), parse_voltage_table.2.2.2.2 7 (Or.inr (by decide))⟩

/-- C6: on the defined tiers 1..6 `parse_voltage` never yields `PD_NOT_SELECTED` and
is injective, so some function recovers the tier from its selector code (the round
trip tier, selector, tier is the identity); every undefined tier maps to
`PD_NOT_SELECTED`. -/
theorem parse_voltage_tier_recoverable :
    (∀ t : Nat, 1 ≤ t → t ≤ 6 → parse_voltage t ≠ PD_NOT_SELECTED)
      ∧ (∀ t u : Nat, 1 ≤ t → t ≤ 6 → 1 ≤ u → u ≤ 6 → parse_voltage t = parse_voltage u → t = u)
      ∧ (∃ g : Nat → Nat, ∀ t : Nat, 1 ≤ t → t ≤ 6 → g (parse_voltage t) = t)
      ∧ (∀ t : Nat, ¬ (1 ≤ t ∧ t ≤ 6) → parse_voltage t = PD_NOT_SELECTED) := by
  refine ⟨?_, ?_, ⟨fun c => if c < 4 then c else c - 4, ?_⟩, ?_⟩
  · intro t h1 h6
    interval_cases t <;> decide
  · intro t u h1 h6 g1 g6
    interval_cases t <;> interval_cases u <;> decide
  · intro t h1 h6
    interval_cases t <;> decide
  · intro t ht
    exact parse_voltage_of_undefined t (by omega)

/-- Witness for C6 at the tiers 4 (15V) and 9 (undefined). -/
theorem parse_voltage_tier_recoverable_witness :
    parse_voltage 4 ≠ PD_NOT_SELECTED ∧ parse_voltage 9 = PD_NOT_SELECTED :=
  ⟨parse_voltage_tier_recoverable.1 4 (by decide) (by decide),
    parse_voltage_tier_recoverable.2.2.2 9 (by decide)⟩

/-! ## Command issuer: theorems -/

/-- C10: for every transport, every prior state and every argument,
`husb2238_selectPD` adds exactly one call to the bus log, the write of the two bytes
`[0x08, (pd_src << 4) mod 256]` to device address `0x08`; it issues no read, leaves
the driver globals alone, and the logged call is the same in any two states on any
two transports. -/
theorem selectPD_single_write {σ τ : Type} (T : I2C σ) (s : Driver σ) (U : I2C τ)
    (u : Driver τ) (pd_src : Nat) :
    (husb2238_selectPD T s pd_src).log
        = s.log ++ [BusOp.write 0x08 [0x08, (pd_src <<< 4) % 256] false]
      ∧ (husb2238_selectPD T s pd_src).log.drop s.log.length
          = (husb2238_selectPD U u pd_src).log.drop u.log.length
      ∧ (husb2238_selectPD T s pd_src).supported_profiles = s.supported_profiles
      ∧ (husb2238_selectPD T s pd_src).i2c_instance = s.i2c_instance
      ∧ (husb2238_selectPD T s pd_src).bus
          = (T.write_blocking s.bus s.i2c_instance 0x08 [0x08, (pd_src <<< 4) % 256] false).1 := by
  simp [husb2238_selectPD, husb238_write_register, i2c_write_blocking]

/-! ## Status decoder under a failed read: theorems -/

/-- C9, as stated, fails for `husb238_getPDSrcCurrent`: on a chip whose STATUS0 holds
0xFF and whose data phase is refused, the register read fails and the decoder
returns 500, not 0. -/
theorem getPDSrcCurrent_failed_read_nonzero :
    (husb238_read_register sim_chip (Driver.boot (Chip.deaf (fun _ => 0xFF)))
        HUSB238_PD_STATUS0 0).2 = (false, 0)
      ∧ (husb238_getPDSrcCurrent sim_chip (Driver.boot (Chip.deaf (fun _ => 0xFF)))).2 = 500
      ∧ (husb238_getPDSrcCurrent sim_chip (Driver.boot (Chip.deaf (fun _ => 0xFF)))).2 ≠ 0 := by
  decide

/-- C9 amended: when the register read that a status decoder performs fails at the
transport and leaves the destination untouched, the decoder returns the decoding of
the all-zero byte: false or 0 for `husb238_getCCDirection`, `husb238_isAttached`,
`husb238_getPDRespone`, `husb238_get5VContractV`, `husb238_get5VContractA`,
`husb238_getPDSrcVoltage` and `husb238_getSelectedPD`, and `parse_current 0`, that is
500 mA, for `husb238_getPDSrcCurrent`. -/
theorem decoders_after_failed_read {σ : Type} (T : I2C σ) (s : Driver σ) :
    (ReadFails T s HUSB238_PD_STATUS1 →
        (husb238_getCCDirection T s).2 = false ∧ (husb238_isAttached T s).2 = false
          ∧ (husb238_getPDRespone T s).2 = 0 ∧ (husb238_get5VContractV T s).2 = false
          ∧ (husb238_get5VContractA T s).2 = 0)
      ∧ (ReadFails T s HUSB238_PD_STATUS0 →
        (husb238_getPDSrcVoltage T s).2 = 0 ∧ (husb238_getPDSrcCurrent T s).2 = 500)
      ∧ (ReadFails T s HUSB238_SRC_PDO → (husb238_getSelectedPD T s).2 = 0) := by
  refine ⟨fun h => ?_, fun h => ?_, fun h => ?_⟩
  · have h0 : (husb238_read_register T s HUSB238_PD_STATUS1 0).2.2 = 0 := by rw [h 0]
    simp only [husb238_getCCDirection, husb238_isAttached, husb238_getPDRespone,
      husb238_get5VContractV, husb238_get5VContractA, h0]
    decide
  · have h0 : (husb238_read_register T s HUSB238_PD_STATUS0 0).2.2 = 0 := by rw [h 0]
    simp only [husb238_getPDSrcVoltage, husb238_getPDSrcCurrent, h0]
    decide
  · have h0 : (husb238_read_register T s HUSB238_SRC_PDO 0).2.2 = 0 := by rw [h 0]
    simp only [husb238_getSelectedPD, h0]
    decide

/-- Witness for C9 amended: the chip that refuses every data phase. -/
theorem decoders_after_failed_read_witness :
    (ReadFails sim_chip (Driver.boot (Chip.deaf (fun _ => 0xFF))) HUSB238_PD_STATUS1
      ∧ ReadFails sim_chip (Driver.boot (Chip.deaf (fun _ => 0xFF))) HUSB238_PD_STATUS0
      ∧ ReadFails sim_chip (Driver.boot (Chip.deaf (fun _ => 0xFF))) HUSB238_SRC_PDO)
      ∧ ((husb238_getCCDirection sim_chip (Driver.boot (Chip.deaf (fun _ => 0xFF)))).2 = false
        ∧ (husb238_isAttached sim_chip (Driver.boot (Chip.deaf (fun _ => 0xFF)))).2 = false
        ∧ (husb238_getPDRespone sim_chip (Driver.boot (Chip.deaf (fun _ => 0xFF)))).2 = 0
        ∧ (husb238_get5VContractV sim_chip (Driver.boot (Chip.deaf (fun _ => 0xFF)))).2 = false
        ∧ (husb238_get5VContractA sim_chip (Driver.boot (Chip.deaf (fun _ => 0xFF)))).2 = 0)
      ∧ ((husb238_getPDSrcVoltage sim_chip (Driver.boot (Chip.deaf (fun _ => 0xFF)))).2 = 0
        ∧ (husb238_getPDSrcCurrent sim_chip (Driver.boot (Chip.deaf (fun _ => 0xFF)))).2 = 500)
      ∧ (husb238_getSelectedPD sim_chip (Driver.boot (Chip.deaf (fun _ => 0xFF)))).2 = 0 :=
  ⟨⟨fun _ => rfl, fun _ => rfl, fun _ => rfl⟩,
    (decoders_after_failed_read sim_chip (Driver.boot (Chip.deaf (fun _ => 0xFF)))).1
      (fun _ => rfl),
    (decoders_after_failed_read sim_chip (Driver.boot (Chip.deaf (fun _ => 0xFF)))).2.1
      (fun _ => rfl),
    (decoders_after_failed_read sim_chip (Driver.boot (Chip.deaf (fun _ => 0xFF)))).2.2
      (fun _ => rfl)⟩

/-! ## Profile scanner on a reliable chip: helper lemmas -/

theorem support_flag_iff (x : Nat) : ((x >>> 7) &&& 0x01) = 1 ↔ x.testBit 7 = true := by
  simp [Nat.testBit, Nat.and_one_is_mod, Nat.shiftRight_eq_div_pow, Nat.one_and_eq_mod_two]

theorem read_register_reliable (s : Driver Chip) (h : s.bus.Reliable) (a v : Nat) :
    husb238_read_register sim_chip s a v
      = ({ s with
            bus := { s.bus with ptr := a }
            log := s.log ++ [BusOp.write 0x08 [a] true, BusOp.read 0x08 1 false] },
          true, s.bus.regs a % 256) := by
  simp [husb238_read_register, i2c_write_blocking, i2c_read_blocking, sim_chip, h.1, h.2]

theorem take_succ_set {α : Type} (e : α) : ∀ (ps : List α) (k : Nat), k < ps.length →
    (ps.set k e).take (k + 1) = ps.take k ++ [e]
  | [], _, h => by simp at h
  | _ :: _, 0, _ => by simp
  | p :: ps, k + 1, h => by
    have := take_succ_set e ps k (by simpa using h)
    simp [this]

theorem scan_entries_succ (regs : Nat → Nat) (i n : Nat) :
    scan_entries regs i (n + 1)
      = if supported_bit (regs i) then scan_entry regs i :: scan_entries regs (i + 1) n
        else scan_entries regs (i + 1) n := by
  unfold scan_entries
  by_cases h : supported_bit (regs i) <;> simp [tier_addrs, List.filter, h]

theorem scan_loop_reliable (n : Nat) : ∀ (i : Nat) (s : Driver Chip) (rv cnt : Nat),
    s.bus.Reliable → s.supported_profiles.length = MAX_PROFILES → cnt + n ≤ MAX_PROFILES →
    ∃ s', scan_loop sim_chip n i s rv cnt
          = some (s', cnt + (scan_entries s.bus.regs i n).length)
      ∧ s'.supported_profiles
          = s.supported_profiles.take cnt ++ scan_entries s.bus.regs i n
              ++ s.supported_profiles.drop (cnt + (scan_entries s.bus.regs i n).length)
      ∧ s'.bus.regs = s.bus.regs ∧ s'.bus.Reliable ∧ s'.i2c_instance = s.i2c_instance := by
  induction n with
  | zero =>
    intro i s rv cnt hrel hlen hcnt
    exact ⟨s, by simp [scan_loop, scan_entries, tier_addrs], by simp [scan_entries, tier_addrs],
      rfl, hrel, rfl⟩
  | succ n ih =>
    intro i s rv cnt hrel hlen hcnt
    rw [scan_loop, read_register_reliable s hrel, scan_entries_succ]
    by_cases hb : supported_bit (s.bus.regs i)
    · have hflag : ((s.bus.regs i % 256) >>> 7) &&& 0x01 = 1 := (support_flag_iff _).2 hb
      have hcur : parse_current ((s.bus.regs i % 256) &&& 0x0F) % 65536
          = parse_current ((s.bus.regs i % 256) &&& 0x0F) :=
        Nat.mod_eq_of_lt (by have := parse_current_le ((s.bus.regs i % 256) &&& 0x0F); omega)
      have hlt : cnt < MAX_PROFILES := by omega
      have hlt2 : cnt < s.supported_profiles.length := by omega
      simp only [hflag, if_true, hb, hcur, store_profile, hlt]
      obtain ⟨s', h1, h2, h3, h4, h5⟩ := ih (i + 1)
        { i2c_instance := s.i2c_instance
          supported_profiles := s.supported_profiles.set cnt (scan_entry s.bus.regs i)
          bus := { s.bus with ptr := i }
          log := s.log ++ [BusOp.write 0x08 [i] true, BusOp.read 0x08 1 false] }
        (s.bus.regs i % 256) (cnt + 1) hrel (by simpa using hlen) (by omega)
      refine ⟨s', ?_, ?_, h3, h4, h5⟩
      · refine h1.trans ?_
        simp only [List.length_cons]
        congr 2
        omega
      · have h2' : s'.supported_profiles
            = List.take (cnt + 1) (s.supported_profiles.set cnt (scan_entry s.bus.regs i))
                ++ scan_entries s.bus.regs (i + 1) n
                ++ List.drop (cnt + 1 + (scan_entries s.bus.regs (i + 1) n).length)
                    (s.supported_profiles.set cnt (scan_entry s.bus.regs i)) := h2
        rw [h2', take_succ_set _ _ _ hlt2, List.drop_set_of_lt _ _ (by omega)]
        simp only [List.length_cons, List.append_assoc, List.singleton_append]
        congr 3
        omega
    · have hflag : ¬ ((s.bus.regs i % 256) >>> 7) &&& 0x01 = 1 :=
        fun h => hb ((support_flag_iff _).1 h)
      simp only [hflag, if_false, hb]
      exact ih (i + 1) _ (s.bus.regs i % 256) cnt hrel hlen (by omega)

theorem scan_entries_length_le (regs : Nat → Nat) (i n : Nat) :
    (scan_entries regs i n).length ≤ n := by
  induction n generalizing i with
  | zero => simp [scan_entries, tier_addrs]
  | succ n ih =>
    rw [scan_entries_succ]
    have := ih (i + 1)
    split <;> simp <;> omega

theorem getSupportedVoltages_reliable (s : Driver Chip) (hrel : s.bus.Reliable)
    (hlen : s.supported_profiles.length = MAX_PROFILES) :
    ∃ s', husb238_getSupportedVoltages sim_chip s
          = some (s', (scan_entries s.bus.regs 2 6).length)
      ∧ s'.supported_profiles
          = scan_entries s.bus.regs 2 6
              ++ s.supported_profiles.drop (scan_entries s.bus.regs 2 6).length
      ∧ s'.bus.regs = s.bus.regs ∧ s'.bus.Reliable ∧ s'.i2c_instance = s.i2c_instance := by
  obtain ⟨s', h1, h2, h3⟩ := scan_loop_reliable 6 2 s 0 0 hrel hlen (by decide)
  refine ⟨s', ?_, ?_, h3⟩
  · simpa [husb238_getSupportedVoltages] using h1
  · simpa using h2

theorem tier_addrs_scan : tier_addrs 2 6 = [2, 3, 4, 5, 6, 7] := rfl

theorem scan_entries_length (regs : Nat → Nat) :
    (scan_entries regs 2 6).length = supported_count regs := by
  simp [scan_entries, supported_count, tier_addrs_scan]

theorem filter_map_pairs {β : Type} (p : Nat → Bool) (f : Nat → β) (g : Nat × Nat → β) :
    ∀ L : List (Nat × Nat), (∀ t ∈ L, f t.1 = g t) →
      ((L.map Prod.fst).filter p).map f = (L.filter (fun t => p t.1)).map g
  | [], _ => rfl
  | t :: L, h => by
    have ih := filter_map_pairs p f g L (fun u hu => h u (List.mem_cons_of_mem _ hu))
    have ht := h t (List.mem_cons_self _ _)
    by_cases hp : p t.1 <;> simp [List.filter, hp, ih, ht]

theorem parse_current_getD (c : Nat) :
    parse_current c
      = [500, 700, 1000, 1250, 1500, 1750, 2000, 2250, 2500, 2750, 3000, 3250, 3500, 4000,
          4500, 5000].getD c 0 := by
  by_cases hc : c < 16
  · interval_cases c <;> decide
  · rw [parse_current_of_ge c (by omega), List.getD_eq_default _ _ (by simpa using hc)]

theorem low_nibble (r : Nat) : (r % 256) &&& 0x0F = r % 16 := by
  have h := Nat.and_pow_two_sub_one_eq_mod (r % 256) 4
  norm_num at h
  rw [h]

/-! ## Profile scanner on a reliable chip: theorems -/

/-- C1, as stated, fails: with the capability registers 0x02 = 0x82, 0x03 = 0x00,
0x04 = 0x8F, 0x05..0x07 = 0x00 the scan returns 2 and the counted slots hold
`{1, 1000, 136}` and `{3, 5000, 96}`, not `{5, 1000, 5000}` and `{12, 5000, 60000}`:
the `voltage` field holds the selector code of `parse_voltage` and the `power` field
is eight bits wide. -/
theorem scan_example_not_volts :
    (husb238_getSupportedVoltages sim_chip
        (Driver.boot (Chip.reliable (regs_of [0x82, 0x00, 0x8F, 0x00, 0x00, 0x00]) 0))).map
        (fun r => (r.2, r.1.supported_profiles.take r.2))
        = some (2, [⟨1, 1000, 136⟩, ⟨3, 5000, 96⟩])
      ∧ (husb238_getSupportedVoltages sim_chip
        (Driver.boot (Chip.reliable (regs_of [0x82, 0x00, 0x8F, 0x00, 0x00, 0x00]) 0))).map
        (fun r => (r.2, r.1.supported_profiles.take r.2))
        ≠ some (2, [⟨5, 1000, 5000⟩, ⟨12, 5000, 60000⟩]) := by
  decide

/-- C1 amended: on a chip whose reads all succeed, `husb238_getSupportedVoltages`
stores, for each capability register 0x02..0x07 whose bit 7 is set and in ascending
tier order, a profile whose `voltage` is the selector code of that tier (1, 2, 3, 8,
9, 10 for 5, 9, 12, 15, 18, 20 V) and whose `current` is the milliamp value of bits
3-0; in particular the registers 0x02 = 0x82, 0x03 = 0x00, 0x04 = 0x8F,
0x05..0x07 = 0x00 give count 2 and the voltage and current fields (1, 1000) and
(3, 5000). -/
theorem scan_stores_selector_and_milliamps (s : Driver Chip) (hrel : s.bus.Reliable)
    (hlen : s.supported_profiles.length = MAX_PROFILES) :
    (∃ s' count, husb238_getSupportedVoltages sim_chip s = some (s', count)
      ∧ (s'.supported_profiles.take count).map (fun p => (p.voltage, p.current))
          = ([(2, 1), (3, 2), (4, 3), (5, 8), (6, 9), (7, 10)].filter
              (fun t => supported_bit (s.bus.regs t.1))).map
              (fun t => (t.2,
                [500, 700, 1000, 1250, 1500, 1750, 2000, 2250, 2500, 2750, 3000, 3250, 3500,
                  4000, 4500, 5000].getD (s.bus.regs t.1 % 16) 0)))
      ∧ (husb238_getSupportedVoltages sim_chip
          (Driver.boot (Chip.reliable (regs_of [0x82, 0x00, 0x8F, 0x00, 0x00, 0x00]) 0))).map
          (fun r => (r.2, (r.1.supported_profiles.take r.2).map (fun p => (p.voltage, p.current))))
          = some (2, [(1, 1000), (3, 5000)]) := by
  refine ⟨?_, by decide⟩
  obtain ⟨s', h1, h2, -⟩ := getSupportedVoltages_reliable s hrel hlen
  refine ⟨s', _, h1, ?_⟩
  rw [h2, List.take_left', scan_entries, tier_addrs_scan, List.map_map]
  · exact filter_map_pairs (fun a => supported_bit (s.bus.regs a)) _ _
      [(2, 1), (3, 2), (4, 3), (5, 8), (6, 9), (7, 10)] (by
        intro t ht
        simp only [Function.comp, scan_entry, low_nibble, parse_current_getD]
        simp only [List.mem_cons, List.mem_singleton, List.not_mem_nil, or_false] at ht
        rcases ht with rfl | rfl | rfl | rfl | rfl | rfl <;> rfl)
  · rfl

/-- Witness for C1 amended: the freshly booted driver on the example chip. -/
theorem scan_stores_selector_and_milliamps_witness :
    (Driver.boot (Chip.reliable (regs_of [0x82, 0x00, 0x8F, 0x00, 0x00, 0x00]) 0)).bus.Reliable
      ∧ ∃ s' count, husb238_getSupportedVoltages sim_chip
            (Driver.boot (Chip.reliable (regs_of [0x82, 0x00, 0x8F, 0x00, 0x00, 0x00]) 0))
          = some (s', count)
        ∧ (s'.supported_profiles.take count).map (fun p => (p.voltage, p.current))
            = ([(2, 1), (3, 2), (4, 3), (5, 8), (6, 9), (7, 10)].filter
                (fun t => supported_bit (regs_of [0x82, 0x00, 0x8F, 0x00, 0x00, 0x00] t.1))).map
                (fun t => (t.2,
                  [500, 700, 1000, 1250, 1500, 1750, 2000, 2250, 2500, 2750, 3000, 3250, 3500,
                    4000, 4500, 5000].getD (regs_of [0x82, 0x00, 0x8F, 0x00, 0x00, 0x00] t.1 % 16)
                    0)) :=
  ⟨⟨fun _ => rfl, fun _ => rfl⟩,
    (scan_stores_selector_and_milliamps
      (Driver.boot (Chip.reliable (regs_of [0x82, 0x00, 0x8F, 0x00, 0x00, 0x00]) 0))
      ⟨fun _ => rfl, fun _ => rfl⟩ rfl).1⟩

/-- C2: on a chip whose reads all succeed, `husb238_getSupportedVoltages` returns
exactly the number of capability registers 0x02..0x07 whose bit 7 is set, and the
first `count` slots of `supported_profiles` are, in ascending address order, one slot
per such register `a`, with `voltage = parse_voltage (a - 1)` and
`current = parse_current (register & 0x0F)`; a register with bit 7 clear contributes
no slot. -/
theorem scan_count_and_entries (s : Driver Chip) (hrel : s.bus.Reliable)
    (hlen : s.supported_profiles.length = MAX_PROFILES) :
    ∃ s' count, husb238_getSupportedVoltages sim_chip s = some (s', count)
      ∧ count = ([2, 3, 4, 5, 6, 7].filter (fun a => (s.bus.regs a % 256).testBit 7)).length
      ∧ (s'.supported_profiles.take count).map (fun p => (p.voltage, p.current))
          = ([2, 3, 4, 5, 6, 7].filter (fun a => (s.bus.regs a % 256).testBit 7)).map
              (fun a => (parse_voltage (a - 1), parse_current ((s.bus.regs a % 256) &&& 0x0F))) := by
  obtain ⟨s', h1, h2, -⟩ := getSupportedVoltages_reliable s hrel hlen
  refine ⟨s', _, h1, ?_, ?_⟩
  · rw [scan_entries_length]
    rfl
  · rw [h2, List.take_left', scan_entries, tier_addrs_scan, List.map_map]
    · rfl
    · rfl

/-- Witness for C2: the freshly booted driver on the example chip of the
specification, where the scan counts the two registers 0x02 and 0x04. -/
theorem scan_count_and_entries_witness :
    ∃ s' count, husb238_getSupportedVoltages sim_chip
          (Driver.boot (Chip.reliable (regs_of [0x82, 0x00, 0x8F, 0x00, 0x00, 0x00]) 0))
        = some (s', count)
      ∧ count = 2
      ∧ (s'.supported_profiles.take count).map (fun p => (p.voltage, p.current))
          = [(1, 1000), (3, 5000)] := by
  obtain ⟨s', count, h1, h2, h3⟩ := scan_count_and_entries
    (Driver.boot (Chip.reliable (regs_of [0x82, 0x00, 0x8F, 0x00, 0x00, 0x00]) 0))
    ⟨fun _ => rfl, fun _ => rfl⟩ rfl
  exact ⟨s', count, h1, h2.trans (by decide), h3.trans (by decide)⟩

/-! ## Initializer on a reliable chip -/

theorem attached_flag (x : Nat) : (((x >>> 6) &&& 0x01) != 0) = x.testBit 6 := by
  simp [Nat.testBit, Nat.and_one_is_mod, Nat.shiftRight_eq_div_pow, Nat.one_and_eq_mod_two]

theorem response_field (x : Nat) : (x >>> 3) &&& 0x07 = x / 8 % 8 := by
  have h := Nat.and_pow_two_sub_one_eq_mod (x >>> 3) 3
  norm_num [Nat.shiftRight_eq_div_pow] at h
  rw [← h, Nat.shiftRight_eq_div_pow]

theorem supported_count_le (regs : Nat → Nat) : supported_count regs ≤ 6 := by
  rw [← scan_entries_length]
  exact scan_entries_length_le regs 2 6

theorem to_int8_small (n : Nat) (h : n ≤ 6) : to_int8 n = (n : Int) := by
  have h1 : n % 256 = n := Nat.mod_eq_of_lt (by omega)
  simp [to_int8, h1]
  omega

theorem isAttached_reliable (s : Driver Chip) (h : s.bus.Reliable) :
    husb238_isAttached sim_chip s
      = ({ s with
            bus := { s.bus with ptr := 0x01 }
            log := s.log ++ [BusOp.write 0x08 [0x01] true, BusOp.read 0x08 1 false] },
          (s.bus.regs 1 % 256).testBit 6) := by
  simp only [husb238_isAttached, read_register_reliable s h, attached_flag]

theorem getPDRespone_reliable (s : Driver Chip) (h : s.bus.Reliable) :
    husb238_getPDRespone sim_chip s
      = ({ s with
            bus := { s.bus with ptr := 0x01 }
            log := s.log ++ [BusOp.write 0x08 [0x01] true, BusOp.read 0x08 1 false] },
          (s.bus.regs 1 % 256) / 8 % 8) := by
  simp only [husb238_getPDRespone, read_register_reliable s h, response_field]

/-- C3: on a chip whose reads all succeed and whose registers stay as they are,
`husb238_init` returns 0 when bit 6 of STATUS1 is clear; -1 when that bit is set and
bits 5-3 of STATUS1 are not `RESPONE_SUCCESS` (1); -2 when the bit is set, the field
is 1 and no capability register has bit 7 set; and otherwise the scan count, which
is positive and at most 6. The result is always one of -2, -1, 0, 1, .., 6. -/
theorem init_outcome (s : Driver Chip) (i2c_port : Option Nat) (hrel : s.bus.Reliable)
    (hlen : s.supported_profiles.length = MAX_PROFILES) :
    ∃ s' r, husb238_init sim_chip s i2c_port = some (s', r)
      ∧ r = (if (s.bus.regs 1 % 256).testBit 6 = false then 0
            else if (s.bus.regs 1 % 256) / 8 % 8 ≠ RESPONE_SUCCESS then -1
            else if supported_count s.bus.regs = 0 then -2
            else (supported_count s.bus.regs : Int))
      ∧ (husb238_getSupportedVoltages sim_chip s).map Prod.snd
          = some (supported_count s.bus.regs)
      ∧ supported_count s.bus.regs ≤ 6
      ∧ r ∈ [-2, -1, 0, 1, 2, 3, 4, 5, 6] := by
  have hle := supported_count_le s.bus.regs
  have hscan : (husb238_getSupportedVoltages sim_chip s).map Prod.snd
      = some (supported_count s.bus.regs) := by
    obtain ⟨s1, h1, -⟩ := getSupportedVoltages_reliable s hrel hlen
    rw [h1, scan_entries_length]
    rfl
  have hmem : ∀ r : Int,
      r = (if (s.bus.regs 1 % 256).testBit 6 = false then 0
            else if (s.bus.regs 1 % 256) / 8 % 8 ≠ RESPONE_SUCCESS then -1
            else if supported_count s.bus.regs = 0 then -2
            else (supported_count s.bus.regs : Int)) →
      r ∈ [-2, -1, 0, 1, 2, 3, 4, 5, 6] := by
    intro r hr
    have : r = -2 ∨ r = -1 ∨ r = 0 ∨ r = 1 ∨ r = 2 ∨ r = 3 ∨ r = 4 ∨ r = 5 ∨ r = 6 := by
      split_ifs at hr <;> omega
    simpa using this
  suffices hmain : ∃ s' r, husb238_init sim_chip s i2c_port = some (s', r)
      ∧ r = (if (s.bus.regs 1 % 256).testBit 6 = false then 0
            else if (s.bus.regs 1 % 256) / 8 % 8 ≠ RESPONE_SUCCESS then -1
            else if supported_count s.bus.regs = 0 then -2
            else (supported_count s.bus.regs : Int)) by
    obtain ⟨s', r, h1, h2⟩ := hmain
    exact ⟨s', r, h1, h2, hscan, hle, hmem r h2⟩
  have hrel0 : ({ s with i2c_instance := i2c_port } : Driver Chip).bus.Reliable := hrel
  rw [husb238_init]
  simp only [isAttached_reliable _ hrel0]
  by_cases hatt : (s.bus.regs 1 % 256).testBit 6 = false
  · simp only [hatt, Bool.not_false, if_true]
    exact ⟨_, _, rfl, rfl⟩
  · have hatt2 : (s.bus.regs 1 % 256).testBit 6 = true := by simpa using hatt
    have hp := getPDRespone_reliable
      ({ i2c_instance := i2c_port, supported_profiles := s.supported_profiles,
         bus := { s.bus with ptr := 1 },
         log := s.log ++ [BusOp.write 8 [1] true, BusOp.read 8 1 false] } : Driver Chip) hrel
    rw [hp]
    simp only [hatt2, Bool.not_true, Bool.false_eq_true, if_false]
    by_cases hresp : (s.bus.regs 1 % 256) / 8 % 8 ≠ RESPONE_SUCCESS
    · simp only [if_pos hresp]
      exact ⟨_, _, rfl, rfl⟩
    · simp only [if_neg hresp]
      obtain ⟨s3, h1, -⟩ := getSupportedVoltages_reliable
        ({ i2c_instance := i2c_port, supported_profiles := s.supported_profiles,
           bus := { s.bus with ptr := 1 },
           log := s.log ++ [BusOp.write 8 [1] true, BusOp.read 8 1 false]
                  ++ [BusOp.write 8 [1] true, BusOp.read 8 1 false] } : Driver Chip) hrel hlen
      have h1' := h1
      simp only [] at h1'
      rw [h1']
      simp only [scan_entries_length]
      by_cases hz : supported_count s.bus.regs = 0
      · simp only [hz, if_true]
        exact ⟨_, _, rfl, rfl⟩
      · simp only [hz, if_false, to_int8_small _ hle]
        exact ⟨_, _, rfl, rfl⟩

/-- Witness for C3: STATUS1 = 0x48 (attached, response 1) and the capability
registers 0x82, 0x00, 0x8F, 0x00, 0x00, 0x00 make `husb238_init` return 2. -/
theorem init_outcome_witness :
    ∃ s' r, husb238_init sim_chip
          (Driver.boot (Chip.reliable
            (fun a => if a = 1 then 0x48 else regs_of [0x82, 0x00, 0x8F, 0x00, 0x00, 0x00] a) 0))
          (some 0) = some (s', r)
      ∧ r = 2 := by
  obtain ⟨s', r, h1, h2, -⟩ := init_outcome
    (Driver.boot (Chip.reliable
      (fun a => if a = 1 then 0x48 else regs_of [0x82, 0x00, 0x8F, 0x00, 0x00, 0x00] a) 0))
    (some 0) ⟨fun _ => rfl, fun _ => rfl⟩ rfl
  exact ⟨s', r, h1, h2.trans (by decide)⟩

/-! ## Profile scanner: stale slots and failed reads -/

/-- C7, evaluated: `husb238_isVoltageDetected` looks at all `MAX_PROFILES` slots, not
at the counted ones. On the never scanned set it returns true for 0; right after a
scan that counts 0 it still returns true for 0; and after a scan of a source offering
5 V and 9 V followed by a scan of a source offering 5 V only (count 1, counted
voltages `[PD_SRC_5V]`) it returns true for `PD_SRC_9V`. -/
theorem isVoltageDetected_stale_slot :
    husb238_isVoltageDetected (Driver.boot (Chip.reliable (regs_of []) 0)) 0 = true
      ∧ (husb238_getSupportedVoltages sim_chip (Driver.boot (Chip.reliable (regs_of []) 0))).map
          (fun r => (r.2, husb238_isVoltageDetected r.1 0)) = some (0, true)
      ∧ (rescan (Driver.boot (Chip.reliable (regs_of [0x82, 0x82]) 0)) (regs_of [0x82, 0x00])).map
          (fun r => (r.1, r.2.1, (r.2.2.supported_profiles.take r.2.1).map (fun p => p.voltage),
            husb238_isVoltageDetected r.2.2 PD_SRC_9V))
          = some (2, 1, [PD_SRC_5V], true) := by
  decide

/-- C8, evaluated: with 0x02 = 0x82 and 0x03..0x07 = 0x00, a refused read of 0x03
leaves `reg_value` at 0x82, the byte of the previous iteration, so the scan appends a
9 V slot and returns 2; the same registers read without failure give count 1. -/
theorem scan_failed_read_appends_tier :
    (∀ v, (husb238_read_register sim_chip (Driver.boot (Chip.nack_one [0x82] 3)) 3 v).2
        = (false, v))
      ∧ (husb238_getSupportedVoltages sim_chip (Driver.boot (Chip.nack_one [0x82] 3))).map
          (fun r => (r.2, r.1.supported_profiles.take r.2))
          = some (2, [⟨PD_SRC_5V, 1000, 136⟩, ⟨PD_SRC_9V, 1000, 40⟩])
      ∧ (husb238_getSupportedVoltages sim_chip
          (Driver.boot (Chip.reliable (regs_of [0x82]) 0))).map
          (fun r => (r.2, r.1.supported_profiles.take r.2))
          = some (1, [⟨PD_SRC_5V, 1000, 136⟩]) := by
  refine ⟨fun _ => rfl, by decide, by decide⟩

/-! ## Register accessor: theorems -/

theorem read_register_globals {σ : Type} (T : I2C σ) (s : Driver σ) (reg v : Nat) :
    (husb238_read_register T s reg v).1.supported_profiles = s.supported_profiles
      ∧ (husb238_read_register T s reg v).1.i2c_instance = s.i2c_instance := by
  by_cases h : (T.write_blocking s.bus s.i2c_instance HUSB238_I2C_ADDRESS [reg] true).2 = 1
  · simp [husb238_read_register, i2c_write_blocking, i2c_read_blocking, h]
  · simp [husb238_read_register, i2c_write_blocking, h]

theorem read_register_log {σ : Type} (T : I2C σ) (s : Driver σ) (reg v : Nat) :
    (husb238_read_register T s reg v).1.log
      = s.log ++ read_ops reg
          (decide ((T.write_blocking s.bus s.i2c_instance HUSB238_I2C_ADDRESS [reg] true).2 = 1)) := by
  unfold husb238_read_register
  by_cases h : (T.write_blocking s.bus s.i2c_instance HUSB238_I2C_ADDRESS [reg] true).2 = 1
  · simp [i2c_write_blocking, i2c_read_blocking, read_ops, h]
  · simp [i2c_write_blocking, read_ops, h]

theorem read_register_byte {σ : Type} (T : I2C σ) (s : Driver σ) (reg v : Nat) (hv : v < 256) :
    (husb238_read_register T s reg v).2.2 < 256 := by
  by_cases h : (T.write_blocking s.bus s.i2c_instance HUSB238_I2C_ADDRESS [reg] true).2 = 1
  · simp only [husb238_read_register, i2c_write_blocking, i2c_read_blocking, h, ne_eq,
      not_true_eq_false, if_false]
    split
    · exact Nat.mod_lt _ (by decide)
    · exact hv
  · simpa [husb238_read_register, i2c_write_blocking, h] using hv

/-- C15: `husb238_read_register` returns true exactly when the one-byte address
write, issued with `nostop = true`, reports 1 and the one-byte read that follows
reports 1. When the address write does not report 1 it returns false, issues no read
and leaves `*value` as it was. Every transport call goes to device address `0x08`. -/
theorem read_register_contract {σ : Type} (T : I2C σ) (s : Driver σ) (reg value : Nat) :
    ((husb238_read_register T s reg value).2.1 = true ↔
        (T.write_blocking s.bus s.i2c_instance 0x08 [reg] true).2 = 1
          ∧ (T.read_blocking (T.write_blocking s.bus s.i2c_instance 0x08 [reg] true).1
                s.i2c_instance 0x08 1 false).2.1 = 1)
      ∧ ((T.write_blocking s.bus s.i2c_instance 0x08 [reg] true).2 ≠ 1 →
          (husb238_read_register T s reg value).2 = (false, value)
            ∧ (husb238_read_register T s reg value).1.log
                = s.log ++ [BusOp.write 0x08 [reg] true])
      ∧ ((T.write_blocking s.bus s.i2c_instance 0x08 [reg] true).2 = 1 →
          (husb238_read_register T s reg value).1.log
            = s.log ++ [BusOp.write 0x08 [reg] true, BusOp.read 0x08 1 false]) := by
  by_cases h : (T.write_blocking s.bus s.i2c_instance 0x08 [reg] true).2 = 1
  · simp [husb238_read_register, i2c_write_blocking, i2c_read_blocking, h]
  · simp [husb238_read_register, i2c_write_blocking, h]

/-- Witness for C15: a chip that refuses every address phase, and a reliable chip. -/
theorem read_register_contract_witness :
    ((husb238_read_register sim_chip (Driver.boot (Chip.mute (fun _ => 0xFF))) 1 7).2 = (false, 7)
        ∧ (husb238_read_register sim_chip (Driver.boot (Chip.mute (fun _ => 0xFF))) 1 7).1.log
            = [BusOp.write 0x08 [1] true])
      ∧ (husb238_read_register sim_chip (Driver.boot (Chip.reliable (fun _ => 0xFF) 0)) 1 7).1.log
          = [BusOp.write 0x08 [1] true, BusOp.read 0x08 1 false] :=
  ⟨(read_register_contract sim_chip (Driver.boot (Chip.mute (fun _ => 0xFF))) 1 7).2.1
      (by decide),
    (read_register_contract sim_chip (Driver.boot (Chip.reliable (fun _ => 0xFF) 0)) 1 7).2.2
      (by decide)⟩

/-- C16: `husb238_write_register` issues exactly one transport call, the write of the
two bytes `[reg, value]` to device `0x08`, and returns true exactly when the transport
reports 2; `husb238_requestPD` issues exactly the write `[0x09, 0b00001]` and
`husb238_reset` exactly the write `[0x09, 0b10000]`, with no read. -/
theorem write_register_contract {σ : Type} (T : I2C σ) (s : Driver σ) (reg value : Nat) :
    (husb238_write_register T s reg value).1.log
        = s.log ++ [BusOp.write 0x08 [reg, value] false]
      ∧ ((husb238_write_register T s reg value).2 = true ↔
          (T.write_blocking s.bus s.i2c_instance 0x08 [reg, value] false).2 = 2)
      ∧ (husb238_write_register T s reg value).1.bus
          = (T.write_blocking s.bus s.i2c_instance 0x08 [reg, value] false).1
      ∧ (husb238_requestPD T s).log = s.log ++ [BusOp.write 0x08 [0x09, 0b00001] false]
      ∧ (husb238_reset T s).log = s.log ++ [BusOp.write 0x08 [0x09, 0b10000] false] := by
  simp [husb238_write_register, husb238_requestPD, husb238_reset, i2c_write_blocking]

/-! ## Status decoder: theorems -/

theorem cc_flag (x : Nat) (hx : x < 256) : ((x >>> 7) != 0) = x.testBit 7 := by
  have h2 : x / 128 < 2 := by omega
  have h3 : x / 128 % 2 = x / 128 := Nat.mod_eq_of_lt h2
  simp [Nat.testBit, Nat.shiftRight_eq_div_pow, Nat.one_and_eq_mod_two, h3]

theorem contract_flag (x : Nat) : (((x >>> 2) &&& 0x01) != 0) = x.testBit 2 := by
  simp [Nat.testBit, Nat.and_one_is_mod, Nat.shiftRight_eq_div_pow, Nat.one_and_eq_mod_two]

theorem contract_field (x : Nat) : x &&& 0x03 = x % 4 := by
  have h := Nat.and_pow_two_sub_one_eq_mod x 2
  norm_num at h
  exact h

theorem read_register_ok_log {σ : Type} (T : I2C σ) (s : Driver σ) (reg v : Nat)
    (h : (husb238_read_register T s reg v).2.1 = true) :
    (husb238_read_register T s reg v).1.log
      = s.log ++ [BusOp.write 0x08 [reg] true, BusOp.read 0x08 1 false] := by
  by_cases hw : (T.write_blocking s.bus s.i2c_instance HUSB238_I2C_ADDRESS [reg] true).2 = 1
  · rw [read_register_log]
    simp [read_ops, hw]
  · simp [husb238_read_register, i2c_write_blocking, hw] at h

/-- C11: when the read of STATUS1 succeeds with the byte `r`,
`husb238_getCCDirection` is bit 7 of `r`, `husb238_isAttached` is bit 6,
`husb238_getPDRespone` is the field of bits 5-3 (any value 0..7, unvalidated),
`husb238_get5VContractV` is bit 2 and `husb238_get5VContractA` is the field of bits
1-0; each of them issues only the address write of register 0x01 and the one-byte
read. -/
theorem status1_decoders {σ : Type} (T : I2C σ) (s : Driver σ) (r : Nat)
    (h : (husb238_read_register T s HUSB238_PD_STATUS1 0).2 = (true, r)) :
    (husb238_getCCDirection T s).2 = r.testBit 7
      ∧ (husb238_isAttached T s).2 = r.testBit 6
      ∧ (husb238_getPDRespone T s).2 = r / 8 % 8
      ∧ (husb238_get5VContractV T s).2 = r.testBit 2
      ∧ (husb238_get5VContractA T s).2 = r % 4
      ∧ (husb238_getCCDirection T s).1.log
          = s.log ++ [BusOp.write 0x08 [0x01] true, BusOp.read 0x08 1 false]
      ∧ (husb238_isAttached T s).1.log
          = s.log ++ [BusOp.write 0x08 [0x01] true, BusOp.read 0x08 1 false]
      ∧ (husb238_getPDRespone T s).1.log
          = s.log ++ [BusOp.write 0x08 [0x01] true, BusOp.read 0x08 1 false]
      ∧ (husb238_get5VContractV T s).1.log
          = s.log ++ [BusOp.write 0x08 [0x01] true, BusOp.read 0x08 1 false]
      ∧ (husb238_get5VContractA T s).1.log
          = s.log ++ [BusOp.write 0x08 [0x01] true, BusOp.read 0x08 1 false] := by
  have hr : (husb238_read_register T s HUSB238_PD_STATUS1 0).2.2 = r := by rw [h]
  have hok : (husb238_read_register T s HUSB238_PD_STATUS1 0).2.1 = true := by rw [h]
  have hlt : r < 256 := by
    rw [← hr]
    exact read_register_byte T s _ 0 (by decide)
  have hlog := read_register_ok_log T s HUSB238_PD_STATUS1 0 hok
  refine ⟨?_, ?_, ?_, ?_, ?_, hlog, hlog, hlog, hlog, hlog⟩
  · simp only [husb238_getCCDirection, hr, cc_flag r hlt]
  · simp only [husb238_isAttached, hr, attached_flag]
  · simp only [husb238_getPDRespone, hr, response_field]
  · simp only [husb238_get5VContractV, hr, contract_flag]
  · simp only [husb238_get5VContractA, hr, contract_field]

/-- Witness for C11: STATUS1 = 0xCD on a reliable chip. -/
theorem status1_decoders_witness :
    (husb238_getCCDirection sim_chip
        (Driver.boot (Chip.reliable (regs_with 0 0xCD []) 0))).2 = (0xCD).testBit 7
      ∧ (husb238_isAttached sim_chip
        (Driver.boot (Chip.reliable (regs_with 0 0xCD []) 0))).2 = (0xCD).testBit 6
      ∧ (husb238_getPDRespone sim_chip
        (Driver.boot (Chip.reliable (regs_with 0 0xCD []) 0))).2 = 0xCD / 8 % 8 :=
  have h := status1_decoders sim_chip (Driver.boot (Chip.reliable (regs_with 0 0xCD []) 0))
    0xCD (by decide)
  ⟨h.1, h.2.1, h.2.2.1⟩

/-! ## Profile scanner on any transport: helper lemmas -/

theorem tier_addrs_length (i n : Nat) : (tier_addrs i n).length = n := by
  induction n generalizing i with
  | zero => rfl
  | succ n ih => simp [tier_addrs, ih]

theorem scan_loop_frame {σ : Type} (T : I2C σ) (n : Nat) :
    ∀ (i : Nat) (s : Driver σ) (rv cnt : Nat),
    s.supported_profiles.length = MAX_PROFILES → cnt + n ≤ MAX_PROFILES →
    ∃ (s' : Driver σ) (es : List PDProfile) (addrs : List Nat),
      scan_loop T n i s rv cnt = some (s', cnt + es.length)
      ∧ s'.supported_profiles
          = s.supported_profiles.take cnt ++ es ++ s.supported_profiles.drop (cnt + es.length)
      ∧ addrs.Sublist (tier_addrs i n)
      ∧ es.map (fun p => p.voltage) = addrs.map (fun a => parse_voltage (a - 1))
      ∧ s'.i2c_instance = s.i2c_instance := by
  induction n with
  | zero =>
    intro i s rv cnt _ _
    exact ⟨s, [], [], by simp [scan_loop], by simp, by simp [tier_addrs], rfl, rfl⟩
  | succ n ih =>
    intro i s rv cnt hlen hcnt
    have hg := read_register_globals T s i rv
    rw [scan_loop]
    simp only []
    generalize husb238_read_register T s i rv = r at hg ⊢
    obtain ⟨hps, hinst⟩ := hg
    have hlt : cnt < MAX_PROFILES := by omega
    have hlt2 : cnt < s.supported_profiles.length := by omega
    by_cases hflag : ((r.2.2 >>> 7) &&& 0x01) = 1
    · simp only [hflag, if_true, store_profile, hlt]
      obtain ⟨s', es, addrs, h1, h2, h3, h4, h5⟩ := ih (i + 1)
        { r.1 with
          supported_profiles := r.1.supported_profiles.set cnt
            ⟨parse_voltage (i - 1), parse_current (r.2.2 &&& 0x0F) % 65536,
              scan_power (i - 1) (parse_current (r.2.2 &&& 0x0F) % 65536)⟩ }
        r.2.2 (cnt + 1) (by simpa [hps] using hlen) (by omega)
      refine ⟨s', ⟨parse_voltage (i - 1), parse_current (r.2.2 &&& 0x0F) % 65536,
          scan_power (i - 1) (parse_current (r.2.2 &&& 0x0F) % 65536)⟩ :: es, i :: addrs,
        ?_, ?_, ?_, ?_, ?_⟩
      · refine h1.trans ?_
        simp only [List.length_cons]
        congr 2
        omega
      · rw [h2]
        simp only [hps]
        rw [take_succ_set _ _ _ hlt2, List.drop_set_of_lt _ _ (by omega)]
        simp only [List.length_cons, List.append_assoc, List.singleton_append]
        congr 3
        omega
      · exact List.Sublist.cons₂ i h3
      · simp [h4]
      · exact h5.trans hinst
    · simp only [hflag, if_false]
      obtain ⟨s', es, addrs, h1, h2, h3, h4, h5⟩ := ih (i + 1) r.1 r.2.2 cnt
        (by rw [hps]; exact hlen) (by omega)
      exact ⟨s', es, addrs, h1, by rw [h2, hps], List.Sublist.cons i h3, h4, h5.trans hinst⟩

theorem getSupportedVoltages_frame {σ : Type} (T : I2C σ) (s : Driver σ)
    (hlen : s.supported_profiles.length = MAX_PROFILES) :
    ∃ (s' : Driver σ) (es : List PDProfile) (addrs : List Nat),
      husb238_getSupportedVoltages T s = some (s', es.length)
      ∧ s'.supported_profiles = es ++ s.supported_profiles.drop es.length
      ∧ addrs.Sublist [2, 3, 4, 5, 6, 7]
      ∧ es.map (fun p => p.voltage) = addrs.map (fun a => parse_voltage (a - 1))
      ∧ es.length ≤ 6
      ∧ s'.i2c_instance = s.i2c_instance := by
  obtain ⟨s', es, addrs, h1, h2, h3, h4, h5⟩ := scan_loop_frame T 6 2 s 0 0 hlen (by decide)
  refine ⟨s', es, addrs, ?_, ?_, h3, h4, ?_, h5⟩
  · simpa [husb238_getSupportedVoltages] using h1
  · simpa using h2
  · have := h3.length_le
    have hl : es.length = addrs.length := by
      have := congrArg List.length h4
      simpa using this
    rw [tier_addrs_length] at this
    omega

theorem selector_codes : [2, 3, 4, 5, 6, 7].map (fun a => parse_voltage (a - 1))
    = [PD_SRC_5V, PD_SRC_9V, PD_SRC_12V, PD_SRC_15V, PD_SRC_18V, PD_SRC_20V] := by
  decide

/-! ## Status decoder and profile scanner: documented units -/

/-- C12, evaluated: `husb238_getPDSrcVoltage` returns the selector code of
`parse_voltage`, not volts. For STATUS0 = 0x10, 0x20, 0x30, 0x40, 0x50, 0x60 (tiers
5 V .. 20 V in bits 7-4) it returns 1, 2, 3, 8, 9, 10; with bits 7-4 = 0b0110 the
result is 10, not 20. -/
theorem getPDSrcVoltage_returns_selector :
    [0x10, 0x20, 0x30, 0x40, 0x50, 0x60].map
        (fun r => (husb238_getPDSrcVoltage sim_chip
          (Driver.boot (Chip.reliable (regs_with r 0 []) 0))).2)
        = [1, 2, 3, 8, 9, 10]
      ∧ (husb238_getPDSrcVoltage sim_chip
          (Driver.boot (Chip.reliable (regs_with 0x60 0 []) 0))).2 ≠ 20 := by
  decide

/-- C13, evaluated: the `power` field is eight bits wide, so the product of volts and
milliamps is reduced modulo 256. With 0x02 = 0x82 and 0x04 = 0x8F the counted slots
hold the currents 1000 and 5000 and the powers 136 and 96, not 5 * 1000 and
12 * 5000. -/
theorem scan_power_truncated :
    (husb238_getSupportedVoltages sim_chip
        (Driver.boot (Chip.reliable (regs_of [0x82, 0x00, 0x8F, 0x00, 0x00, 0x00]) 0))).map
        (fun r => (r.1.supported_profiles.take r.2).map (fun p => (p.current, p.power)))
        = some [(1000, 136), (5000, 96)]
      ∧ (136 : Nat) = 5 * 1000 % 256 ∧ (96 : Nat) = 12 * 5000 % 256
      ∧ (136 : Nat) ≠ 5 * 1000 ∧ (96 : Nat) ≠ 12 * 5000 := by
  decide

/-! ## Profile scanner on any transport: theorems -/

/-- C14: for every transport, failed reads included, the scan returns, and the
`voltage` fields of the counted slots form a sublist of the six selector codes
1, 2, 3, 8, 9, 10 in this order: each is a code that `parse_voltage` produces
for a defined tier, none is `PD_NOT_SELECTED`, and they are strictly increasing,
hence pairwise distinct. -/
theorem scan_voltages_increasing {σ : Type} (T : I2C σ) (s : Driver σ)
    (hlen : s.supported_profiles.length = MAX_PROFILES) :
    ∃ s' count, husb238_getSupportedVoltages T s = some (s', count)
      ∧ ((s'.supported_profiles.take count).map (fun p => p.voltage)).Sublist
          ([1, 2, 3, 4, 5, 6].map parse_voltage)
      ∧ (∀ v ∈ (s'.supported_profiles.take count).map (fun p => p.voltage),
          v ≠ PD_NOT_SELECTED
            ∧ v ∈ [PD_SRC_5V, PD_SRC_9V, PD_SRC_12V, PD_SRC_15V, PD_SRC_18V, PD_SRC_20V])
      ∧ ((s'.supported_profiles.take count).map (fun p => p.voltage)).Pairwise (· < ·)
      ∧ ((s'.supported_profiles.take count).map (fun p => p.voltage)).Nodup := by
  obtain ⟨s', es, addrs, h1, h2, h3, h4, -⟩ := getSupportedVoltages_frame T s hlen
  have hsub : ((s'.supported_profiles.take es.length).map (fun p => p.voltage)).Sublist
      [PD_SRC_5V, PD_SRC_9V, PD_SRC_12V, PD_SRC_15V, PD_SRC_18V, PD_SRC_20V] := by
    rw [h2, List.take_left' rfl, h4, ← selector_codes]
    exact h3.map _
  have hinc : ((s'.supported_profiles.take es.length).map (fun p => p.voltage)).Pairwise
      (· < ·) := List.Pairwise.sublist hsub (by decide)
  refine ⟨s', es.length, h1, hsub, ?_, hinc, ?_⟩
  · intro v hv
    have hmem := hsub.subset hv
    refine ⟨?_, hmem⟩
    simp only [List.mem_cons, List.mem_singleton, List.not_mem_nil, or_false] at hmem
    rcases hmem with rfl | rfl | rfl | rfl | rfl | rfl <;> decide
  · exact hinc.imp (fun hab => Nat.ne_of_lt hab)

/-- Witness for C14: a chip that refuses the read of register 0x03. -/
theorem scan_voltages_increasing_witness :
    ∃ s' count, husb238_getSupportedVoltages sim_chip
          (Driver.boot (Chip.nack_one [0x82, 0x00, 0x8F] 3)) = some (s', count)
      ∧ ((s'.supported_profiles.take count).map (fun p => p.voltage)).Pairwise (· < ·) := by
  obtain ⟨s', count, h1, -, -, h4, -⟩ := scan_voltages_increasing sim_chip
    (Driver.boot (Chip.nack_one [0x82, 0x00, 0x8F] 3)) rfl
  exact ⟨s', count, h1, h4⟩

/-- C19: for every transport the scan changes only the counted slots: every slot at
an index from the returned count upwards keeps its previous contents, and the array
keeps its six slots. On a chip whose reads all succeed and whose six capability
registers all have bit 7 clear, the scan returns 0 and leaves the whole profile set
unchanged. -/
theorem scan_keeps_uncounted_slots {σ : Type} (T : I2C σ) (s : Driver σ)
    (hlen : s.supported_profiles.length = MAX_PROFILES) (c : Driver Chip)
    (hrel : c.bus.Reliable) (hlenc : c.supported_profiles.length = MAX_PROFILES)
    (hclear : ∀ a, 2 ≤ a → a ≤ 7 → (c.bus.regs a % 256).testBit 7 = false) :
    (∃ s' count, husb238_getSupportedVoltages T s = some (s', count)
        ∧ s'.supported_profiles.drop count = s.supported_profiles.drop count
        ∧ (∀ j, count ≤ j → s'.supported_profiles[j]? = s.supported_profiles[j]?)
        ∧ s'.supported_profiles.length = MAX_PROFILES)
      ∧ ∃ c', husb238_getSupportedVoltages sim_chip c = some (c', 0)
          ∧ c'.supported_profiles = c.supported_profiles := by
  constructor
  · obtain ⟨s', es, addrs, h1, h2, -, -, h5, -⟩ := getSupportedVoltages_frame T s hlen
    have hdrop : s'.supported_profiles.drop es.length = s.supported_profiles.drop es.length := by
      rw [h2, List.drop_left' rfl]
    refine ⟨s', es.length, h1, hdrop, ?_, ?_⟩
    · intro j hj
      have h := congrArg (fun l => l[j - es.length]?) hdrop
      simp only [List.getElem?_drop] at h
      rwa [Nat.add_sub_cancel' hj] at h
    · have h6 : s.supported_profiles.length = 6 := hlen
      show s'.supported_profiles.length = 6
      rw [h2]
      simp only [List.length_append, List.length_drop]
      omega
  · obtain ⟨c', h1, h2, -⟩ := getSupportedVoltages_reliable c hrel hlenc
    have hnil : scan_entries c.bus.regs 2 6 = [] := by
      simp [scan_entries, tier_addrs_scan, supported_bit, hclear]
    rw [hnil] at h1 h2
    exact ⟨c', h1, by simpa using h2⟩

/-- Witness for C19: six stale 20 V slots. On the example chip (0x02 = 0x82,
0x04 = 0x8F) the scan counts 2, rewrites the slots 0 and 1 and keeps the four stale
slots behind them; on a chip with all capability registers 0 it counts 0 and keeps
all six stale slots. -/
theorem scan_keeps_uncounted_slots_witness :
    (∃ s' count, husb238_getSupportedVoltages sim_chip
          (Driver.stale (Chip.reliable (regs_of [0x82, 0x00, 0x8F]) 0)) = some (s', count)
        ∧ count = 2
        ∧ s'.supported_profiles.drop count = List.replicate 4 ⟨PD_SRC_20V, 5000, 160⟩
        ∧ s'.supported_profiles[5]? = some ⟨PD_SRC_20V, 5000, 160⟩
        ∧ s'.supported_profiles.take count = [⟨PD_SRC_5V, 1000, 136⟩, ⟨PD_SRC_12V, 5000, 96⟩])
      ∧ ∃ c', husb238_getSupportedVoltages sim_chip
            (Driver.stale (Chip.reliable (regs_of []) 0)) = some (c', 0)
          ∧ c'.supported_profiles = List.replicate 6 ⟨PD_SRC_20V, 5000, 160⟩ := by
  have h := scan_keeps_uncounted_slots sim_chip
    (Driver.stale (Chip.reliable (regs_of [0x82, 0x00, 0x8F]) 0)) rfl
    (Driver.stale (Chip.reliable (regs_of []) 0)) ⟨fun _ => rfl, fun _ => rfl⟩ rfl
    (fun a _ _ => by simp [Driver.stale, Chip.reliable, regs_of])
  obtain ⟨⟨s', count, h1, h2, h3, -⟩, c', h4, h5⟩ := h
  have hcount : count = 2 := by
    have hc := congrArg (Option.map Prod.snd) h1
    have hd : (husb238_getSupportedVoltages sim_chip
        (Driver.stale (Chip.reliable (regs_of [0x82, 0x00, 0x8F]) 0))).map Prod.snd
        = some 2 := by decide
    rw [hd] at hc
    exact (Option.some.inj hc).symm
  have htake : (husb238_getSupportedVoltages sim_chip
      (Driver.stale (Chip.reliable (regs_of [0x82, 0x00, 0x8F]) 0))).map
      (fun r => r.1.supported_profiles.take r.2)
      = some [⟨PD_SRC_5V, 1000, 136⟩, ⟨PD_SRC_12V, 5000, 96⟩] := by decide
  rw [h1] at htake
  subst hcount
  exact ⟨⟨s', 2, h1, rfl, h2, h3 5 (by decide), Option.some.inj htake⟩, c', h4, h5⟩

/-! ## Profile scanner on a reliable chip: further theorems -/

theorem scan_result_length (regs : Nat → Nat) (ps : List PDProfile)
    (hlen : ps.length = MAX_PROFILES) :
    (scan_entries regs 2 6 ++ ps.drop (scan_entries regs 2 6).length).length = MAX_PROFILES := by
  have h6 : ps.length = 6 := hlen
  have hle := scan_entries_length_le regs 2 6
  show _ = 6
  simp only [List.length_append, List.length_drop]
  omega

theorem scan_entry_mem (regs : Nat → Nat) (a : Nat) (h2 : 2 ≤ a) (h7 : a ≤ 7)
    (hbit : supported_bit (regs a) = true) : scan_entry regs a ∈ scan_entries regs 2 6 := by
  rw [scan_entries, tier_addrs_scan]
  refine List.mem_map.2 ⟨a, List.mem_filter.2 ⟨?_, hbit⟩, rfl⟩
  have : a = 2 ∨ a = 3 ∨ a = 4 ∨ a = 5 ∨ a = 6 ∨ a = 7 := by omega
  simpa using this

/-- C17: after a scan on a chip whose reads all succeed, for every tier `t` in 1..6
whose capability register (address `t + 1`) has bit 7 set,
`husb238_isVoltageDetected (parse_voltage t)` is true; in particular
`husb238_isVoltageDetected PD_SRC_9V` is true when register 0x03 has bit 7 set. The
function takes no transport and returns no state: its result is determined by
`supported_profiles` alone. -/
theorem scan_then_detected (s : Driver Chip) (hrel : s.bus.Reliable)
    (hlen : s.supported_profiles.length = MAX_PROFILES) :
    ∃ s' count, husb238_getSupportedVoltages sim_chip s = some (s', count)
      ∧ (∀ t, 1 ≤ t → t ≤ 6 → (s.bus.regs (t + 1) % 256).testBit 7 = true →
          husb238_isVoltageDetected s' (parse_voltage t) = true)
      ∧ ((s.bus.regs 0x03 % 256).testBit 7 = true →
          husb238_isVoltageDetected s' PD_SRC_9V = true)
      ∧ ∀ (τ : Type) (u : Driver τ) (v : Nat),
          u.supported_profiles = s'.supported_profiles →
            husb238_isVoltageDetected u v = husb238_isVoltageDetected s' v := by
  obtain ⟨s', h1, h2, -⟩ := getSupportedVoltages_reliable s hrel hlen
  have hdet : ∀ t, 1 ≤ t → t ≤ 6 → (s.bus.regs (t + 1) % 256).testBit 7 = true →
      husb238_isVoltageDetected s' (parse_voltage t) = true := by
    intro t ht1 ht6 hbit
    have hmem := scan_entry_mem s.bus.regs (t + 1) (by omega) (by omega) hbit
    have hl := scan_result_length s.bus.regs s.supported_profiles hlen
    rw [husb238_isVoltageDetected, h2, List.take_of_length_le (le_of_eq hl), List.any_eq_true]
    exact ⟨scan_entry s.bus.regs (t + 1), List.mem_append_left _ hmem, by simp [scan_entry]⟩
  refine ⟨s', _, h1, hdet, ?_, ?_⟩
  · intro hbit
    exact hdet 2 (by decide) (by decide) hbit
  · intro τ u v hu
    simp only [husb238_isVoltageDetected, hu]

/-- Witness for C17: the example chip, tier 3 (12 V, register 0x04 = 0x8F). -/
theorem scan_then_detected_witness :
    ∃ s' count, husb238_getSupportedVoltages sim_chip
          (Driver.boot (Chip.reliable (regs_of [0x82, 0x00, 0x8F, 0x00, 0x00, 0x00]) 0))
        = some (s', count)
      ∧ husb238_isVoltageDetected s' PD_SRC_12V = true := by
  obtain ⟨s', count, h1, h2, -⟩ := scan_then_detected
    (Driver.boot (Chip.reliable (regs_of [0x82, 0x00, 0x8F, 0x00, 0x00, 0x00]) 0))
    ⟨fun _ => rfl, fun _ => rfl⟩ rfl
  exact ⟨s', count, h1, h2 3 (by decide) (by decide) (by decide)⟩

/-- C18: on chips whose reads all succeed and whose register files agree, the scan
returns the same count and leaves identical counted slots whatever the profile set
held before; scanning again on the unchanged chip reproduces the count and the
counted slots. -/
theorem scan_independent_of_prior_set (s1 s2 : Driver Chip) (hrel1 : s1.bus.Reliable)
    (hrel2 : s2.bus.Reliable) (hlen1 : s1.supported_profiles.length = MAX_PROFILES)
    (hlen2 : s2.supported_profiles.length = MAX_PROFILES) (hregs : s1.bus.regs = s2.bus.regs) :
    ∃ a b n, husb238_getSupportedVoltages sim_chip s1 = some (a, n)
      ∧ husb238_getSupportedVoltages sim_chip s2 = some (b, n)
      ∧ a.supported_profiles.take n = b.supported_profiles.take n
      ∧ ∃ a2, husb238_getSupportedVoltages sim_chip a = some (a2, n)
          ∧ a2.supported_profiles.take n = a.supported_profiles.take n := by
  obtain ⟨a, ha1, ha2, ha3, ha4, -⟩ := getSupportedVoltages_reliable s1 hrel1 hlen1
  obtain ⟨b, hb1, hb2, -⟩ := getSupportedVoltages_reliable s2 hrel2 hlen2
  have hla : a.supported_profiles.length = MAX_PROFILES := by
    rw [ha2]
    exact scan_result_length _ _ hlen1
  obtain ⟨a2, hc1, hc2, -⟩ := getSupportedVoltages_reliable a ha4 hla
  rw [ha3] at hc1 hc2
  rw [← hregs] at hb1 hb2
  refine ⟨a, b, _, ha1, hb1, ?_, a2, hc1, ?_⟩
  · rw [ha2, hb2, List.take_left' rfl, List.take_left' rfl]
  · rw [hc2, List.take_left' rfl, ha2, List.take_left' rfl]

/-- Witness for C18: the freshly booted set against a set full of stale 20 V slots,
on the example chip. -/
theorem scan_independent_of_prior_set_witness :
    ∃ a b n, husb238_getSupportedVoltages sim_chip
          (Driver.boot (Chip.reliable (regs_of [0x82, 0x00, 0x8F]) 0)) = some (a, n)
      ∧ husb238_getSupportedVoltages sim_chip
          { i2c_instance := some 0
            supported_profiles := List.replicate 6 ⟨PD_SRC_20V, 5000, 160⟩
            bus := Chip.reliable (regs_of [0x82, 0x00, 0x8F]) 7
            log := [] } = some (b, n)
      ∧ a.supported_profiles.take n = b.supported_profiles.take n := by
  obtain ⟨a, b, n, h1, h2, h3, -⟩ := scan_independent_of_prior_set
    (Driver.boot (Chip.reliable (regs_of [0x82, 0x00, 0x8F]) 0))
    { i2c_instance := some 0
      supported_profiles := List.replicate 6 ⟨PD_SRC_20V, 5000, 160⟩
      bus := Chip.reliable (regs_of [0x82, 0x00, 0x8F]) 7
      log := [] }
    ⟨fun _ => rfl, fun _ => rfl⟩ ⟨fun _ => rfl, fun _ => rfl⟩ rfl rfl rfl
  exact ⟨a, b, n, h1, h2, h3⟩

/-! ## Initializer on any transport -/

theorem read_register_shape {σ : Type} (T : I2C σ) (s : Driver σ) (reg v : Nat) :
    (husb238_read_register T s reg v).1.log
        = s.log ++ [BusOp.write 0x08 [reg] true, BusOp.read 0x08 1 false]
      ∨ ((husb238_read_register T s reg v).1.log = s.log ++ [BusOp.write 0x08 [reg] true]
          ∧ (husb238_read_register T s reg v).2.2 = v) := by
  by_cases h : (T.write_blocking s.bus s.i2c_instance 0x08 [reg] true).2 = 1
  · left
    simp [husb238_read_register, i2c_write_blocking, i2c_read_blocking, h]
  · right
    simp [husb238_read_register, i2c_write_blocking, h]

/-- C20: for every transport, when `husb238_init` returns 0 it has performed exactly
one register read, of STATUS1 (the address write of 0x01 and, when that succeeded,
the one-byte read); when it returns -1 it has performed exactly two, both of
STATUS1. In both cases the bus log holds no access to a capability register
0x02..0x07 and no two-byte register write, and `supported_profiles` is unchanged. -/
theorem init_aborts_at_first_failure {σ : Type} (T : I2C σ) (s : Driver σ)
    (i2c_port : Option Nat) (hlen : s.supported_profiles.length = MAX_PROFILES)
    (s' : Driver σ) :
    (husb238_init T s i2c_port = some (s', 0) →
        (s'.log = s.log ++ [BusOp.write 0x08 [0x01] true, BusOp.read 0x08 1 false]
          ∨ s'.log = s.log ++ [BusOp.write 0x08 [0x01] true])
        ∧ s'.supported_profiles = s.supported_profiles)
      ∧ (husb238_init T s i2c_port = some (s', -1) →
        (s'.log = s.log ++ [BusOp.write 0x08 [0x01] true, BusOp.read 0x08 1 false]
              ++ [BusOp.write 0x08 [0x01] true, BusOp.read 0x08 1 false]
          ∨ s'.log = s.log ++ [BusOp.write 0x08 [0x01] true, BusOp.read 0x08 1 false]
              ++ [BusOp.write 0x08 [0x01] true])
        ∧ s'.supported_profiles = s.supported_profiles) := by
  have hg1 := read_register_globals T { s with i2c_instance := i2c_port } HUSB238_PD_STATUS1 0
  have hs1 := read_register_shape T { s with i2c_instance := i2c_port } HUSB238_PD_STATUS1 0
  rw [husb238_init]
  simp only [husb238_isAttached, husb238_getPDRespone]
  generalize husb238_read_register T { s with i2c_instance := i2c_port } HUSB238_PD_STATUS1 0
    = r1 at hg1 hs1 ⊢
  have hg2 := read_register_globals T r1.1 HUSB238_PD_STATUS1 0
  have hs2 := read_register_shape T r1.1 HUSB238_PD_STATUS1 0
  generalize husb238_read_register T r1.1 HUSB238_PD_STATUS1 0 = r2 at hg2 hs2 ⊢
  by_cases hatt : (((r1.2.2 >>> 6) &&& 0x01) != 0) = true
  · have hlog1 : r1.1.log = s.log ++ [BusOp.write 0x08 [0x01] true, BusOp.read 0x08 1 false] := by
      rcases hs1 with h | ⟨-, h⟩
      · exact h
      · rw [h] at hatt
        exact absurd hatt (by decide)
    simp only [hatt, Bool.not_true, Bool.false_eq_true, if_false]
    by_cases hresp : (r2.2.2 >>> 3) &&& 0x07 ≠ RESPONE_SUCCESS
    · simp only [if_pos hresp]
      constructor
      · intro h
        simp at h
      · intro h
        simp only [Option.some.injEq, Prod.mk.injEq, and_true] at h
        subst h
        refine ⟨?_, hg2.1.trans hg1.1⟩
        rcases hs2 with h | ⟨h, -⟩
        · left
          rw [h, hlog1]
        · right
          rw [h, hlog1]
    · simp only [if_neg hresp]
      obtain ⟨s3, es, addrs, h1, -, -, -, h5, -⟩ := getSupportedVoltages_frame T r2.1
        (by rw [hg2.1, hg1.1]; exact hlen)
      rw [h1]
      simp only []
      have hpos : to_int8 es.length = (es.length : Int) := to_int8_small _ h5
      by_cases hz : es.length = 0
      · simp [hz]
      · simp only [if_neg hz, hpos, Option.some.injEq, Prod.mk.injEq]
        constructor
        · intro h
          omega
        · intro h
          omega
  · have hatt2 : (((r1.2.2 >>> 6) &&& 0x01) != 0) = false := by simpa using hatt
    simp only [hatt2, Bool.not_false, if_true]
    constructor
    · intro h
      simp only [Option.some.injEq, Prod.mk.injEq, and_true] at h
      subst h
      refine ⟨?_, hg1.1⟩
      rcases hs1 with h | ⟨h, -⟩
      · exact Or.inl h
      · exact Or.inr h
    · intro h
      simp at h

/-- Witness for C20: STATUS1 = 0x00 makes `husb238_init` return 0 after one read,
STATUS1 = 0x40 (attached, no response) makes it return -1 after two. -/
theorem init_aborts_at_first_failure_witness :
    (husb238_init sim_chip (Driver.boot (Chip.reliable (regs_with 0 0x00 [0x82]) 0)) (some 0)
        = some ((husb238_isAttached sim_chip
            { Driver.boot (Chip.reliable (regs_with 0 0x00 [0x82]) 0) with
              i2c_instance := some 0 }).1, 0)
      ∧ (husb238_isAttached sim_chip
            { Driver.boot (Chip.reliable (regs_with 0 0x00 [0x82]) 0) with
              i2c_instance := some 0 }).1.supported_profiles
          = (Driver.boot (Chip.reliable (regs_with 0 0x00 [0x82]) 0)).supported_profiles)
      ∧ (husb238_init sim_chip (Driver.boot (Chip.reliable (regs_with 0 0x40 [0x82]) 0)) (some 0)
        = some ((husb238_getPDRespone sim_chip (husb238_isAttached sim_chip
            { Driver.boot (Chip.reliable (regs_with 0 0x40 [0x82]) 0) with
              i2c_instance := some 0 }).1).1, -1)
      ∧ (husb238_getPDRespone sim_chip (husb238_isAttached sim_chip
            { Driver.boot (Chip.reliable (regs_with 0 0x40 [0x82]) 0) with
              i2c_instance := some 0 }).1).1.supported_profiles
          = (Driver.boot (Chip.reliable (regs_with 0 0x40 [0x82]) 0)).supported_profiles) :=
  ⟨⟨rfl, ((init_aborts_at_first_failure sim_chip
      (Driver.boot (Chip.reliable (regs_with 0 0x00 [0x82]) 0)) (some 0) rfl _).1 rfl).2⟩,
    ⟨rfl, ((init_aborts_at_first_failure sim_chip
      (Driver.boot (Chip.reliable (regs_with 0 0x40 [0x82]) 0)) (some 0) rfl _).2 rfl).2⟩⟩

/-! ## Profile scanner: array bounds -/

theorem scan_loop_in_bounds {σ : Type} (T : I2C σ) (n : Nat) :
    ∀ (i : Nat) (s : Driver σ) (rv cnt : Nat), cnt + n ≤ MAX_PROFILES →
    ∃ (s' : Driver σ) (c : Nat), scan_loop T n i s rv cnt = some (s', c)
      ∧ cnt ≤ c ∧ c ≤ cnt + n
      ∧ s'.supported_profiles.length = s.supported_profiles.length := by
  induction n with
  | zero =>
    intro i s rv cnt _
    exact ⟨s, cnt, by simp [scan_loop], Nat.le_refl _, Nat.le_refl _, rfl⟩
  | succ n ih =>
    intro i s rv cnt hcnt
    have hg := (read_register_globals T s i rv).1
    rw [scan_loop]
    simp only []
    generalize husb238_read_register T s i rv = r at hg ⊢
    have hlt : cnt < MAX_PROFILES := by omega
    by_cases hflag : ((r.2.2 >>> 7) &&& 0x01) = 1
    · simp only [hflag, if_true, store_profile, hlt]
      obtain ⟨s', c, h1, h2, h3, h4⟩ := ih (i + 1)
        { r.1 with
          supported_profiles := r.1.supported_profiles.set cnt
            ⟨parse_voltage (i - 1), parse_current (r.2.2 &&& 0x0F) % 65536,
              scan_power (i - 1) (parse_current (r.2.2 &&& 0x0F) % 65536)⟩ }
        r.2.2 (cnt + 1) (by omega)
      refine ⟨s', c, h1, by omega, by omega, ?_⟩
      rw [h4]
      simp [hg]
    · simp only [hflag, if_false]
      obtain ⟨s', c, h1, h2, h3, h4⟩ := ih (i + 1) r.1 r.2.2 cnt (by omega)
      exact ⟨s', c, h1, h2, by omega, h4.trans (by rw [hg])⟩

/-- C21: for every transport, whatever reads fail, and every prior state,
`husb238_getSupportedVoltages` returns: no store of the scan uses an index outside
`supported_profiles` (a store succeeds exactly when its index is below
`MAX_PROFILES`), the array keeps its length, and the returned count is at most 6. -/
theorem scan_stores_in_bounds {σ : Type} (T : I2C σ) (s : Driver σ) :
    (∃ s' count, husb238_getSupportedVoltages T s = some (s', count)
        ∧ count ≤ MAX_PROFILES ∧ MAX_PROFILES = 6
        ∧ s'.supported_profiles.length = s.supported_profiles.length)
      ∧ ∀ (ps : List PDProfile) (idx : Nat) (p : PDProfile),
          (store_profile ps idx p).isSome = true ↔ idx < MAX_PROFILES := by
  constructor
  · obtain ⟨s', c, h1, -, h3, h4⟩ := scan_loop_in_bounds T 6 2 s 0 0 (by decide)
    have h6 : c ≤ 6 := by omega
    exact ⟨s', c, h1, h6, rfl, h4⟩
  · intro ps idx p
    by_cases h : idx < MAX_PROFILES <;> simp [store_profile, h]

/-! ## Status decoder: reassembly and tables -/

set_option maxRecDepth 100000 in
theorem reassemble_byte : ∀ r < 256,
    ((((r >>> 7) != 0).toNat <<< 7) ||| ((((r >>> 6) &&& 0x01) != 0).toNat <<< 6)
      ||| (((r >>> 3) &&& 0x07) <<< 3) ||| ((((r >>> 2) &&& 0x01) != 0).toNat <<< 2)
      ||| (r &&& 0x03)) = r := by
  decide

theorem read_register_reliable_fields (s : Driver Chip) (h : s.bus.Reliable) (a v : Nat) :
    (husb238_read_register sim_chip s a v).1.bus.Reliable
      ∧ (husb238_read_register sim_chip s a v).1.bus.regs = s.bus.regs
      ∧ (husb238_read_register sim_chip s a v).2 = (true, s.bus.regs a % 256) := by
  rw [read_register_reliable s h]
  exact ⟨h, rfl, rfl⟩

/-- C22: the five STATUS1 decoders partition the register without loss. When the
read of STATUS1 succeeds with the byte `r`,
`(getCCDirection << 7) | (isAttached << 6) | (getPDRespone << 3) |
(get5VContractV << 2) | get5VContractA` is `r`, with `getPDRespone ≤ 7` and
`get5VContractA ≤ 3`; and on a chip whose reads all succeed, calling the five
decoders one after the other reassembles the byte that STATUS1 holds. -/
theorem status1_partition {σ : Type} (T : I2C σ) (s : Driver σ) (r : Nat)
    (h : (husb238_read_register T s HUSB238_PD_STATUS1 0).2 = (true, r))
    (c : Driver Chip) (hrel : c.bus.Reliable) :
    (((husb238_getCCDirection T s).2.toNat <<< 7)
        ||| ((husb238_isAttached T s).2.toNat <<< 6)
        ||| ((husb238_getPDRespone T s).2 <<< 3)
        ||| ((husb238_get5VContractV T s).2.toNat <<< 2)
        ||| (husb238_get5VContractA T s).2) = r
      ∧ (husb238_getPDRespone T s).2 ≤ 7
      ∧ (husb238_get5VContractA T s).2 ≤ 3
      ∧ (status1_fields sim_chip c).2 = c.bus.regs 1 % 256 := by
  have hr : (husb238_read_register T s HUSB238_PD_STATUS1 0).2.2 = r := by rw [h]
  have hlt : r < 256 := by
    rw [← hr]
    exact read_register_byte T s _ 0 (by decide)
  refine ⟨?_, ?_, ?_, ?_⟩
  · simp only [husb238_getCCDirection, husb238_isAttached, husb238_getPDRespone,
      husb238_get5VContractV, husb238_get5VContractA, hr]
    exact reassemble_byte r hlt
  · simp only [husb238_getPDRespone, hr, response_field]
    omega
  · simp only [husb238_get5VContractA, hr, contract_field]
    omega
  · obtain ⟨ha1, ha2, ha3⟩ := read_register_reliable_fields c hrel HUSB238_PD_STATUS1 0
    obtain ⟨hb1, hb2, hb3⟩ := read_register_reliable_fields _ ha1 HUSB238_PD_STATUS1 0
    obtain ⟨hc1, hc2, hc3⟩ := read_register_reliable_fields _ hb1 HUSB238_PD_STATUS1 0
    obtain ⟨hd1, hd2, hd3⟩ := read_register_reliable_fields _ hc1 HUSB238_PD_STATUS1 0
    obtain ⟨-, -, he3⟩ := read_register_reliable_fields _ hd1 HUSB238_PD_STATUS1 0
    rw [hd2, hc2, hb2, ha2] at he3
    rw [hc2, hb2, ha2] at hd3
    rw [hb2, ha2] at hc3
    rw [ha2] at hb3
    simp only [status1_fields, husb238_getCCDirection, husb238_isAttached,
      husb238_getPDRespone, husb238_get5VContractV, husb238_get5VContractA,
      ha3, hb3, hc3, hd3, he3]
    exact reassemble_byte _ (Nat.mod_lt _ (by decide))

/-- Witness for C22: STATUS1 = 0xCD on a reliable chip, where the decoders yield
1, 1, 1, 1, 1 and `(1 << 7) | (1 << 6) | (1 << 3) | (1 << 2) | 1 = 0xCD`. -/
theorem status1_partition_witness :
    (((husb238_getCCDirection sim_chip
          (Driver.boot (Chip.reliable (regs_with 0 0xCD []) 0))).2.toNat <<< 7)
        ||| ((husb238_isAttached sim_chip
          (Driver.boot (Chip.reliable (regs_with 0 0xCD []) 0))).2.toNat <<< 6)
        ||| ((husb238_getPDRespone sim_chip
          (Driver.boot (Chip.reliable (regs_with 0 0xCD []) 0))).2 <<< 3)
        ||| ((husb238_get5VContractV sim_chip
          (Driver.boot (Chip.reliable (regs_with 0 0xCD []) 0))).2.toNat <<< 2)
        ||| (husb238_get5VContractA sim_chip
          (Driver.boot (Chip.reliable (regs_with 0 0xCD []) 0))).2) = 0xCD :=
  (status1_partition sim_chip (Driver.boot (Chip.reliable (regs_with 0 0xCD []) 0)) 0xCD
    (by decide) (Driver.boot (Chip.reliable (regs_with 0 0xCD []) 0))
    ⟨fun _ => rfl, fun _ => rfl⟩).1

theorem nibble_lt (x : Nat) : x &&& 0x0F < 16 := by
  have h := Nat.and_pow_two_sub_one_eq_mod x 4
  norm_num at h
  rw [h]
  omega

theorem parse_current_nibble (c : Nat) (hc : c < 16) :
    parse_current c ∈ [500, 700, 1000, 1250, 1500, 1750, 2000, 2250, 2500, 2750, 3000, 3250,
        3500, 4000, 4500, 5000]
      ∧ 500 ≤ parse_current c ∧ parse_current c ≠ 0 := by
  interval_cases c <;> decide

/-- C23: for every transport and every outcome of the STATUS0 read,
`husb238_getPDSrcCurrent` returns `parse_current` of the low nibble of the byte it
decodes, which is `r & 0x0F` when the read succeeds with the byte `r`; the result is
one of the 16 table values, lies between 500 and 5000 mA and is never 0. -/
theorem getPDSrcCurrent_in_table {σ : Type} (T : I2C σ) (s : Driver σ) :
    (husb238_getPDSrcCurrent T s).2
        = parse_current ((husb238_read_register T s HUSB238_PD_STATUS0 0).2.2 &&& 0x0F)
      ∧ (∀ r, (husb238_read_register T s HUSB238_PD_STATUS0 0).2 = (true, r) →
          (husb238_getPDSrcCurrent T s).2 = parse_current (r &&& 0x0F))
      ∧ (husb238_getPDSrcCurrent T s).2
          ∈ [500, 700, 1000, 1250, 1500, 1750, 2000, 2250, 2500, 2750, 3000, 3250, 3500,
              4000, 4500, 5000]
      ∧ 500 ≤ (husb238_getPDSrcCurrent T s).2
      ∧ (husb238_getPDSrcCurrent T s).2 ≤ 5000
      ∧ (husb238_getPDSrcCurrent T s).2 ≠ 0 := by
  have hn := parse_current_nibble _
    (nibble_lt (husb238_read_register T s HUSB238_PD_STATUS0 0).2.2)
  refine ⟨rfl, ?_, hn.1, hn.2.1, parse_current_le _, hn.2.2⟩
  intro r hr
  simp only [husb238_getPDSrcCurrent, hr]

/-- Witness for C23: STATUS0 = 0x3A on a reliable chip gives `parse_current 0xA`,
that is 3000 mA. -/
theorem getPDSrcCurrent_in_table_witness :
    (husb238_getPDSrcCurrent sim_chip
        (Driver.boot (Chip.reliable (regs_with 0x3A 0 []) 0))).2 = parse_current (0x3A &&& 0x0F)
      ∧ parse_current (0x3A &&& 0x0F) = 3000 :=
  ⟨(getPDSrcCurrent_in_table sim_chip
      (Driver.boot (Chip.reliable (regs_with 0x3A 0 []) 0))).2.1 0x3A (by decide),
    by decide⟩

/-! ## Command issuer and status decoder: select and read back -/

theorem selected_field (t : Nat) : (((t <<< 4) % 256) >>> 4) &&& 0x0F = t &&& 0x0F := by
  have h := Nat.and_pow_two_sub_one_eq_mod (((t <<< 4) % 256) >>> 4) 4
  have h2 := Nat.and_pow_two_sub_one_eq_mod t 4
  norm_num at h h2
  rw [h, h2, Nat.shiftRight_eq_div_pow, Nat.shiftLeft_eq]
  omega

theorem selectPD_reliable (s : Driver Chip) (hrel : s.bus.Reliable) (t : Nat) :
    husb2238_selectPD sim_chip s t
      = { s with
          bus := { s.bus with
            ptr := 0x08
            regs := fun a => if a = 0x08 then (t <<< 4) % 256 else s.bus.regs a }
          log := s.log ++ [BusOp.write 0x08 [0x08, (t <<< 4) % 256] false] } := by
  simp [husb2238_selectPD, husb238_write_register, i2c_write_blocking, sim_chip, hrel.1]

/-- C24: on the simulated chip, whose register 0x08 stores the byte last written to
it, and with no transport failure, `husb2238_selectPD t` followed by
`husb238_getSelectedPD` returns `t & 0x0F` for every `t`, hence `t` itself for every
4-bit code; the register then holds `(t << 4) mod 256`. -/
theorem select_then_read_back (s : Driver Chip) (hrel : s.bus.Reliable) (t : Nat) :
    (husb238_getSelectedPD sim_chip (husb2238_selectPD sim_chip s t)).2 = t &&& 0x0F
      ∧ (t < 16 → (husb238_getSelectedPD sim_chip (husb2238_selectPD sim_chip s t)).2 = t)
      ∧ (husb2238_selectPD sim_chip s t).bus.regs 0x08 = (t <<< 4) % 256 := by
  have hval : (husb238_getSelectedPD sim_chip (husb2238_selectPD sim_chip s t)).2
      = t &&& 0x0F := by
    rw [selectPD_reliable s hrel, husb238_getSelectedPD]
    simp only []
    have hread := (read_register_reliable_fields
      ({ s with
          bus := { s.bus with
            ptr := 0x08
            regs := fun a => if a = 0x08 then (t <<< 4) % 256 else s.bus.regs a }
          log := s.log ++ [BusOp.write 0x08 [0x08, (t <<< 4) % 256] false] } : Driver Chip)
      hrel HUSB238_SRC_PDO 0).2.2
    rw [hread]
    simp only [if_true, Nat.mod_mod]
    exact selected_field t
  refine ⟨hval, ?_, ?_⟩
  · intro ht
    rw [hval]
    have h2 := Nat.and_pow_two_sub_one_eq_mod t 4
    norm_num at h2
    rw [h2]
    omega
  · rw [selectPD_reliable s hrel]
    simp

/-- Witness for C24: selecting `PD_SRC_20V` on a reliable chip and reading back. -/
theorem select_then_read_back_witness :
    (husb238_getSelectedPD sim_chip
        (husb2238_selectPD sim_chip (Driver.boot (Chip.reliable (regs_of []) 0)) PD_SRC_20V)).2
      = PD_SRC_20V :=
  (select_then_read_back (Driver.boot (Chip.reliable (regs_of []) 0))
    ⟨fun _ => rfl, fun _ => rfl⟩ PD_SRC_20V).2.1 (by decide)

end HUSB238
